import Mathlib

/-!
My Apps Launcher content script: extraction pipeline

A shallow embedding of `src/content.js` (`scrapeApps`, `extractAppFromElement`,
`saveApps`, `processApiResponse`, `observeAndScrape`, the `scrapeApps` message
handler and the `fetch` wrapper of `interceptApiResponse`) and of
`formatDateForFile` in `src/popup.js`, together with the properties of the
specification that were checked against it.

Conventions of the embedding:

* a JavaScript value that reaches the code is a `JsVal`; `undefined` and `null`
  are kept apart from the empty string because `||` treats all three alike
  while property access does not;
* a thrown exception is the `none` of an `Option` result, and a promise ends as
  a `Settled` value, which may be `pending` for ever;
* `String.prototype.length` counts UTF-16 code units (`jsLength`);
* the browser functions the script calls but does not define
  (`document.querySelectorAll`, `new URL(u, base).href`,
  `window.location.origin`, `new Date().toISOString()`) are parameters.
-/

namespace MyApps

/-! ## JavaScript values -/

/-- A JavaScript value as produced by `JSON.parse` or by a DOM property read.
Numbers are kept as integers: the script only tests them for truthiness and
stores them. An object is the list of its own properties. -/
inductive JsVal where
  | undefined : JsVal
  | null : JsVal
  | bool (b : Bool) : JsVal
  | num (n : Int) : JsVal
  | str (s : String) : JsVal
  | arr (items : List JsVal) : JsVal
  | obj (fields : List (String × JsVal)) : JsVal

/-- JavaScript truthiness (`ToBoolean`). -/
def JsVal.truthy : JsVal → Bool
  | .undefined => false
  | .null => false
  | .bool b => b
  | .num n => n != 0
  | .str s => s != ""
  | .arr _ => true
  | .obj _ => true

/-- The operator `a || b` on values. -/
def JsVal.or (a b : JsVal) : JsVal := if a.truthy then a else b

/-- Property read `v.key`: `none` is the `TypeError` raised on `null` and
`undefined`; the keys the script reads are not defined on the prototypes of
strings, numbers, booleans or arrays, so these give `undefined`. -/
def JsVal.getProp (v : JsVal) (key : String) : Option JsVal :=
  match v with
  | .undefined => none
  | .null => none
  | .obj fields => some ((fields.lookup key).getD .undefined)
  | _ => some .undefined

/-- Optional chaining `v?.key`. -/
def JsVal.getPropOpt (v : JsVal) (key : String) : JsVal :=
  (v.getProp key).getD .undefined

/-- Number of UTF-16 code units of one character. -/
def utf16Units (c : Char) : Nat := if c.toNat < 65536 then 1 else 2

/-- The value of `s.length` in JavaScript: UTF-16 code units. -/
def jsLength (s : String) : Nat := (s.toList.map utf16Units).sum

/-- The value of `s.startsWith(p)`. -/
def jsStartsWith (s p : String) : Bool := p.toList.isPrefixOf s.toList

/-- The sequence a `for (const item of v)` loop visits: `none` is the
`TypeError` for a value that is not iterable. -/
def JsVal.iterate : JsVal → Option (List JsVal)
  | .arr items => some items
  | .str s => some (s.toList.map fun c => JsVal.str (String.singleton c))
  | _ => none

/-! ## DOM candidates and records -/

/-- What `extractAppFromElement` and `scrapeApps` read from one DOM element.
Each field is the value of one expression of the source; `none` is
`null`/`undefined`. -/
structure Element where
  /-- `el.getAttribute("aria-label")` -/
  ariaLabel : Option String
  /-- `el.getAttribute("title")` -/
  title : Option String
  /-- `el.querySelector('[class*="name"], [class*="Name"], [class*="title"]')?.textContent?.trim()` -/
  nameText : Option String
  /-- `el.querySelector("span, div:not(:has(*))")?.textContent?.trim()` -/
  leafText : Option String
  /-- `el.textContent?.trim()` (never `null` for an element) -/
  text : String
  /-- `el.href` -/
  href : Option String
  /-- `el.getAttribute("href")` -/
  hrefAttr : Option String
  /-- `el.querySelector("a")?.href` -/
  innerLink : Option String
  /-- `el.closest("a")?.href` -/
  outerLink : Option String
  /-- `el.querySelector("img")?.src`; `none` when there is no `img` descendant -/
  img : Option String
  /-- `el.querySelector('[class*="icon"] img, [class*="logo"] img')?.src` -/
  iconImg : Option String

/-- The operator `a || b` where the operands are strings or `null`/`undefined`. -/
def strOr (a b : Option String) : Option String :=
  match a with
  | some s => if s != "" then a else b
  | none => b

/-- An application record `{ name, url, icon }`. -/
structure App where
  name : JsVal
  url : JsVal
  icon : JsVal

/-- The browser functions the content script relies on. -/
structure Browser where
  /-- `window.location.origin` -/
  origin : String
  /-- `new URL(u, base).href`; `none` when the constructor throws -/
  resolveURL : String → String → Option String

/-- The two mutable locals of `scrapeApps`: the result array and the `Set` of
names. -/
structure ScrapeState where
  apps : List App
  seen : List String

/-- The name expression of `extractAppFromElement` (lines 89-95). -/
def elementName (el : Element) : Option String :=
  strOr (strOr (strOr (strOr el.ariaLabel el.title) el.nameText) el.leafText) (some el.text)

/-- The URL expression of `extractAppFromElement` (lines 100-105). -/
def elementUrl (el : Element) : String :=
  (strOr (strOr (strOr (strOr el.href el.hrefAttr) el.innerLink) el.outerLink) (some "")).getD ""

/-- The icon expression of `extractAppFromElement` (lines 113-116). -/
def elementIcon (el : Element) : String :=
  (strOr (strOr el.img el.iconImg) (some "")).getD ""

/-- The variable `url` after the block `if (url && !url.startsWith("http"))`
(lines 100-110); `none` when `new URL` throws. -/
def resolvedUrl (env : Browser) (el : Element) : Option String :=
  if elementUrl el ≠ "" ∧ ¬ jsStartsWith (elementUrl el) "http" then
    env.resolveURL (elementUrl el) env.origin
  else some (elementUrl el)

/-- The function `extractAppFromElement(el, apps, seen)`. The result is the
state after the call; `none` is an exception thrown by `new URL`, which happens
before `apps` or `seen` is touched. -/
def extractAppFromElement (env : Browser) (el : Element) (s : ScrapeState) :
    Option ScrapeState :=
  match elementName el with
  | none => some s
  | some name =>
    if name = "" ∨ jsLength name > 100 ∨ name ∈ s.seen then some s
    else
      match resolvedUrl env el with
      | none => none
      | some url =>
        let icon := elementIcon el
        if url ≠ "" ∨ icon ≠ "" then
          some
            { seen := s.seen ++ [name]
              apps := s.apps ++
                [{ name := .str name
                   url := .str (if url ≠ "" then url else "https://myapps.microsoft.com")
                   icon := .str icon }] }
        else some s

/-- The loop `elements.forEach((el) => extractAppFromElement(el, apps, seen))`. The
flag tells whether a call threw, which ends the loop with the state reached. -/
def forEachExtract (env : Browser) : List Element → ScrapeState → ScrapeState × Bool
  | [], s => (s, false)
  | el :: rest, s =>
    match extractAppFromElement env el s with
    | none => (s, true)
    | some s' => forEachExtract env rest s'

/-- The document as `scrapeApps` sees it: `document.querySelectorAll(selector)`,
`none` when the call throws. -/
structure Document where
  querySelectorAll : String → Option (List Element)

/-- The array `selectors` of `scrapeApps` (lines 33-47). -/
def selectors : List String :=
  [ "[data-automationid=\"AppTile\"]",
    "[role=\"listitem\"] a[href]",
    ".ms-List-cell a[href]",
    ".app-tile",
    ".tile-link",
    "a[data-appid]",
    "[class*=\"appTile\"]",
    "[class*=\"app-tile\"]",
    "[class*=\"AppCard\"]",
    "[class*=\"app-card\"]" ]

/-- The selector of the first fallback (line 60). -/
def signinSelector : String := "a[href*=\"signin/\"]"

/-- The selector of the second fallback (line 67). -/
def clickableSelector : String := "div[role=\"button\"], div[tabindex=\"0\"], a[role=\"link\"]"

/-- The loop `for (const selector of selectors)` with its `try`/`catch`: an
exception from `querySelectorAll` or from inside `forEach` ends that selector
only, and what was pushed before it stays. -/
def scrapeSelectors (env : Browser) (doc : Document) : List String → ScrapeState → ScrapeState
  | [], s => s
  | sel :: rest, s =>
    match doc.querySelectorAll sel with
    | none => scrapeSelectors env doc rest s
    | some elements => scrapeSelectors env doc rest (forEachExtract env elements s).1

/-- The test `img && text && text.length < 100` of the second fallback. -/
def clickableCandidate (el : Element) : Bool :=
  el.img.isSome && el.text != "" && decide (jsLength el.text < 100)

/-- The function `scrapeApps()`: the returned array, or `none` when an exception
leaves the function (only the two fallbacks run outside a `try`). -/
def scrapeApps (env : Browser) (doc : Document) : Option (List App) :=
  let s0 := scrapeSelectors env doc selectors { apps := [], seen := [] }
  let r1 : Option ScrapeState :=
    if s0.apps.length = 0 then
      match doc.querySelectorAll signinSelector with
      | none => none
      | some links =>
        match forEachExtract env links s0 with
        | (_, true) => none
        | (s, false) => some s
    else some s0
  match r1 with
  | none => none
  | some s1 =>
    if s1.apps.length = 0 then
      match doc.querySelectorAll clickableSelector with
      | none => none
      | some candidates =>
        match forEachExtract env (candidates.filter clickableCandidate) s1 with
        | (_, true) => none
        | (s, false) => some s.apps
    else some s1.apps

/-! ## Persistence -/

/-- A value held under one key of `chrome.storage.local`. -/
inductive Stored where
  | apps (records : List App) : Stored
  | text (s : String) : Stored

/-- The extension's storage area: the value under each key, the `set` calls
issued so far (oldest first), and the store's answer to a `set` request
(`false` when it rejects the write, as on a full quota). -/
structure Storage where
  data : String → Option Stored
  setCalls : List (List (String × Stored))
  accepts : List (String × Stored) → Bool

/-- Modelled from the spec: `chrome.storage.local.set(mapping)` is not part of the repository;
the spec describes it as a "wholesale overwrite of named keys" of a flat
key-value store, and names "store write rejected" as a failure. The result is
the store after the call and whether the promise is fulfilled; a rejected
write changes no key. -/
def Storage.set (mapping : List (String × Stored)) (st : Storage) : Storage × Bool :=
  if st.accepts mapping then
    ({ st with
        data := fun key =>
          match mapping.lookup key with
          | some v => some v
          | none => st.data key
        setCalls := st.setCalls ++ [mapping] }, true)
  else ({ st with setCalls := st.setCalls ++ [mapping] }, false)

/-- The function `saveApps(apps)`; `now` is `new Date().toISOString()`. The
rejection of the write is caught and only logged (lines 135-145), so the
function returns either way. -/
def saveApps (now : String) (apps : List App) (st : Storage) : Storage :=
  if apps.length = 0 then st
  else
    match st.set [("myApps", .apps apps), ("lastUpdated", .text now)] with
    | (st', true) => st'
    | (st', false) => st'

/-! ## Network payloads -/

/-- The expression `Array.isArray(data) ? data : data?.appList || data?.value || []`. -/
def apiItems (data : JsVal) : JsVal :=
  match data with
  | .arr _ => data
  | _ => ((data.getPropOpt "appList").or (data.getPropOpt "value")).or (.arr [])

/-- The body of the loop of `processApiResponse` for one item; `none` is the
`TypeError` of reading a property of `null` or `undefined`. -/
def processApiItem (item : JsVal) (apps : List App) : Option (List App) := do
  let displayName ← item.getProp "displayName"
  let name := (displayName.or (item.getPropOpt "name")).or (item.getPropOpt "appDisplayName")
  let url :=
    ((((item.getPropOpt "launchUrl").or (item.getPropOpt "loginUrl")).or
      (item.getPropOpt "url")).or (item.getPropOpt "homepageUrl")).or (.str "")
  let icon :=
    (((item.getPropOpt "logoUrl").or (item.getPropOpt "iconUrl")).or
      (item.getPropOpt "logo")).or (.str "")
  if name.truthy then some (apps ++ [{ name := name, url := url, icon := icon }])
  else some apps

/-- The loop `for (const item of items)` of `processApiResponse`. -/
def processApiLoop : List JsVal → List App → Option (List App)
  | [], apps => some apps
  | item :: rest, apps =>
    match processApiItem item apps with
    | none => none
    | some apps' => processApiLoop rest apps'

/-- The array `apps` that `processApiResponse(data)` has built when its loop
ends; `none` when the loop throws. -/
def processApiRecords (data : JsVal) : Option (List App) :=
  match (apiItems data).iterate with
  | none => none
  | some items => processApiLoop items []

/-! ## The session of one page load -/

/-- The constant `MAX_RETRIES`. -/
def MAX_RETRIES : Nat := 20

/-- The constant `RETRY_INTERVAL`, in milliseconds. -/
def RETRY_INTERVAL : Nat := 2000

/-- The delay of the debounce `setTimeout`, in milliseconds (line 265). -/
def DEBOUNCE_DELAY : Nat := 1000

/-- The mutable state of the content script during one page load. `passes`
counts the calls of `scrapeApps()`; it is not a variable of the script. -/
structure Session where
  /-- the flag `hasSscraped`, set by `processApiResponse` -/
  hasSscraped : Bool
  /-- the flag `hasScrapped`, set by `tryToScrape` and read by both triggers -/
  hasScrapped : Bool
  retryCount : Nat
  /-- the `MutationObserver` is connected -/
  observing : Bool
  /-- a debounce `setTimeout` is pending -/
  debounceTimer : Bool
  /-- the `setInterval` is armed -/
  retryInterval : Bool
  /-- the `onMessage` listener of `main` is installed -/
  listening : Bool
  storage : Storage
  passes : Nat

/-- The closure `tryToScrape` of `observeAndScrape`: its return value, `none`
when `scrapeApps()` throws. -/
def tryToScrape (env : Browser) (doc : Document) (now : String) (σ : Session) :
    Session × Option Bool :=
  match scrapeApps env doc with
  | none => ({ σ with passes := σ.passes + 1 }, none)
  | some apps =>
    if apps.length > 0 then
      ({ σ with
          passes := σ.passes + 1
          hasScrapped := true
          storage := saveApps now apps σ.storage }, some true)
    else ({ σ with passes := σ.passes + 1 }, some false)

/-- The function `processApiResponse(data)` on the session; `none` when it
throws. -/
def processApiResponse (now : String) (data : JsVal) (σ : Session) : Option Session :=
  match processApiRecords data with
  | none => none
  | some apps =>
    if apps.length > 0 then
      some { σ with hasSscraped := true, storage := saveApps now apps σ.storage }
    else some σ

/-- The state in which `main` starts: both flags false, nothing armed. -/
def Session.start (st : Storage) : Session :=
  { hasSscraped := false, hasScrapped := false, retryCount := 0, observing := false,
    debounceTimer := false, retryInterval := false, listening := false,
    storage := st, passes := 0 }

/-- The synchronous part of `observeAndScrape()`: the first attempt, then, when it
found nothing, the observer and the interval are armed. The flag tells whether
the function returned (an exception of the first attempt leaves it). -/
def observeAndScrape (env : Browser) (doc : Document) (now : String) (σ : Session) :
    Session × Bool :=
  match tryToScrape env doc now { σ with retryCount := 0 } with
  | (σ1, none) => (σ1, false)
  | (σ1, some true) => (σ1, true)
  | (σ1, some false) =>
    ({ σ1 with debounceTimer := false, observing := true, retryInterval := true }, true)

/-- The function `main()` from the call of `observeAndScrape` on: the listener is
added only when that call returned. -/
def main (env : Browser) (doc : Document) (now : String) (st : Storage) : Session :=
  match observeAndScrape env doc now (Session.start st) with
  | (σ, false) => σ
  | (σ, true) => { σ with listening := true }

/-- What the event loop can deliver to the content script after `main`. The
timer and message events carry the document and the clock reading at the
moment they run. -/
inductive Event where
  /-- the `MutationObserver` callback -/
  | mutation : Event
  /-- the debounce `setTimeout` callback -/
  | debounce (doc : Document) (now : String) : Event
  /-- the `setInterval` callback -/
  | retry (doc : Document) (now : String) : Event
  /-- a parsed payload handed to `processApiResponse` by an interceptor -/
  | apiResponse (data : JsVal) (now : String) : Event
  /-- a message with action `scrapeApps` -/
  | scrapeMessage (doc : Document) (now : String) : Event

/-- One callback run. A callback whose source is not armed does not run. -/
def step (env : Browser) (σ : Session) : Event → Session
  | .mutation =>
    if σ.observing then
      if σ.hasScrapped then { σ with observing := false }
      else { σ with debounceTimer := true }
    else σ
  | .debounce doc now =>
    if σ.debounceTimer then
      match tryToScrape env doc now { σ with debounceTimer := false } with
      | (σ1, some true) => { σ1 with observing := false }
      | (σ1, _) => σ1
    else σ
  | .retry doc now =>
    if σ.retryInterval then
      let σ1 := { σ with retryCount := σ.retryCount + 1 }
      if σ1.hasScrapped ∨ σ1.retryCount ≥ MAX_RETRIES then
        { σ1 with retryInterval := false, observing := false }
      else (tryToScrape env doc now σ1).1
    else σ
  | .apiResponse data now =>
    match processApiResponse now data σ with
    | none => σ
    | some σ1 => σ1
  | .scrapeMessage doc now =>
    if σ.listening then
      match scrapeApps env doc with
      | none => { σ with passes := σ.passes + 1 }
      | some apps => { σ with passes := σ.passes + 1, storage := saveApps now apps σ.storage }
    else σ

/-- The session after a trace of events. -/
def run (env : Browser) (σ : Session) (events : List Event) : Session :=
  events.foldl (step env) σ

/-! ## The fetch wrapper of `interceptApiResponse` -/

/-- How a promise ends: fulfilled, rejected, or never settled. -/
inductive Settled (α ε : Type) where
  | resolved (value : α) : Settled α ε
  | rejected (error : ε) : Settled α ε
  | pending : Settled α ε

/-- The value of `s.includes(p)` for strings. -/
def jsIncludes (s p : String) : Bool :=
  s.toList.tails.any fun t => p.toList.isPrefixOf t

/-- The expression `typeof args[0] === "string" ? args[0] : args[0]?.url || ""`
(line 158). A `Request` is an object with a `url` property. -/
def requestUrl (args : List JsVal) : JsVal :=
  match args.head?.getD .undefined with
  | .str s => .str s
  | arg0 => (arg0.getPropOpt "url").or (.str "")

/-- The call `url.includes(p)`: the string method, the array method, or `none` for
the `TypeError` raised when the value has no such method. -/
def urlIncludes (url : JsVal) (p : String) : Option Bool :=
  match url with
  | .str s => some (jsIncludes s p)
  | .arr items =>
    some (items.any fun v =>
      match v with
      | .str t => t == p
      | _ => false)
  | _ => none

/-- The condition `url.includes("/api/myapps") || url.includes("/api/") &&
url.includes("application")` (lines 162-163), evaluated left to right. -/
def matchesApi (url : JsVal) : Option Bool :=
  match urlIncludes url "/api/myapps" with
  | none => none
  | some true => some true
  | some false =>
    match urlIncludes url "/api/" with
    | none => none
    | some false => some false
    | some true => urlIncludes url "application"

/-- What the wrapper is installed over; `ρ` are the responses, `ε` the errors. -/
structure FetchEnv (ρ ε : Type) where
  /-- `originalFetch.apply(this, args)` -/
  originalFetch : List JsVal → Settled ρ ε
  /-- `response.clone().json()`: the parsed body, a failure of `clone` or of the
  parse, or a read of the body that never ends -/
  cloneJson : ρ → Settled JsVal ε
  /-- the `TypeError` of calling a method the value does not have -/
  typeError : ε

/-- The result of one call of the wrapper: how its promise ends, and the data it
handed to `processApiResponse`, if any. -/
structure WrappedCall (ρ ε : Type) where
  outcome : Settled ρ ε
  handed : Option JsVal

/-- The function assigned to `window.fetch` (lines 156-175). Whatever
`processApiResponse(data)` throws is caught with the parse errors. -/
def wrappedFetch {ρ ε : Type} (w : FetchEnv ρ ε) (args : List JsVal) : WrappedCall ρ ε :=
  match w.originalFetch args with
  | .pending => { outcome := .pending, handed := none }
  | .rejected e => { outcome := .rejected e, handed := none }
  | .resolved response =>
    match matchesApi (requestUrl args) with
    | none => { outcome := .rejected w.typeError, handed := none }
    | some false => { outcome := .resolved response, handed := none }
    | some true =>
      match w.cloneJson response with
      | .pending => { outcome := .pending, handed := none }
      | .rejected _ => { outcome := .resolved response, handed := none }
      | .resolved data => { outcome := .resolved response, handed := some data }

/-! ## The export file name (`popup.js`) -/

/-- A valid `Date` by the UTC fields `toISOString` prints. The month and the day
count from zero, the year is that of the proleptic Gregorian calendar. -/
structure UtcFields where
  year : Int
  month : Fin 12
  day : Fin 31
  hours : Fin 24
  minutes : Fin 60
  seconds : Fin 60
  milliseconds : Fin 1000

/-- A `Date` object: a time value, or `Invalid Date`. -/
inductive JsDate where
  | invalid : JsDate
  | valid (fields : UtcFields) : JsDate

/-- The decimal digit of `n` in the last place. -/
def digit (n : Nat) : Char :=
  match n % 10 with
  | 0 => '0'
  | 1 => '1'
  | 2 => '2'
  | 3 => '3'
  | 4 => '4'
  | 5 => '5'
  | 6 => '6'
  | 7 => '7'
  | 8 => '8'
  | _ => '9'

/-- Two digits, zero padded. -/
def pad2 (n : Nat) : List Char := [digit (n / 10), digit n]

/-- Three digits, zero padded. -/
def pad3 (n : Nat) : List Char := [digit (n / 100), digit (n / 10), digit n]

/-- Four digits, zero padded. -/
def pad4 (n : Nat) : List Char := [digit (n / 1000), digit (n / 100), digit (n / 10), digit n]

/-- Six digits, zero padded. -/
def pad6 (n : Nat) : List Char :=
  [digit (n / 100000), digit (n / 10000), digit (n / 1000), digit (n / 100), digit (n / 10),
    digit n]

/-- The year as `toISOString` prints it: four digits from 0 to 9999, otherwise a
sign and six digits. -/
def isoYear (year : Int) : List Char :=
  if 0 ≤ year ∧ year ≤ 9999 then pad4 year.toNat
  else if year < 0 then '-' :: pad6 year.natAbs
  else '+' :: pad6 year.natAbs

/-- The method `Date.prototype.toISOString`: `YYYY-MM-DDTHH:mm:ss.sssZ`; `none` is
the `RangeError` on `Invalid Date`. -/
def toISOString : JsDate → Option String
  | .invalid => none
  | .valid f =>
    some (String.mk
      (isoYear f.year ++ '-' :: pad2 (f.month.val + 1) ++ '-' :: pad2 (f.day.val + 1) ++
        'T' :: pad2 f.hours.val ++ ':' :: pad2 f.minutes.val ++ ':' :: pad2 f.seconds.val ++
        '.' :: pad3 f.milliseconds.val ++ ['Z']))

/-- The call `s.replace(/[:.]/g, "")`. -/
def removeColonsDots (s : String) : String :=
  String.mk (s.toList.filter fun c => c != ':' && c != '.')

/-- Replace the first `'T'` of a list of characters by `'-'`. -/
def replaceFirstT : List Char → List Char
  | [] => []
  | c :: rest => if c = 'T' then '-' :: rest else c :: replaceFirstT rest

/-- The call `s.replace("T", "-")`: the first occurrence only. -/
def replaceT (s : String) : String := String.mk (replaceFirstT s.toList)

/-- The call `s.slice(0, 15)` on a string of characters of one code unit each, as
the output of `toISOString` is. -/
def slice15 (s : String) : String := String.mk (s.toList.take 15)

/-- The function `formatDateForFile(date)` of `popup.js`. -/
def formatDateForFile (date : JsDate) : Option String :=
  (toISOString date).map fun iso => slice15 (replaceT (removeColonsDots iso))

/-- The value given to `a.download` in `exportData` (line 387); `now` is
`new Date()`. -/
def exportFileName (now : JsDate) : Option String :=
  (formatDateForFile now).map fun stamp => "my-apps-export-" ++ stamp ++ ".json"

/-! ## Notions used in the statements -/

/-- The name `extractAppFromElement` accepts for `el`, before the seen-set is
consulted: the first truthy source, unless it is longer than 100 code units. -/
def acceptedName (el : Element) : Option String :=
  match elementName el with
  | none => none
  | some name => if name = "" ∨ jsLength name > 100 then none else some name

/-- The record `extractAppFromElement` pushes for a candidate whose accepted name
is `name` and whose resolved URL is `url`, if it pushes one. -/
def builtRecord (el : Element) (name url : String) : Option App :=
  if url ≠ "" ∨ elementIcon el ≠ "" then
    some { name := .str name
           url := .str (if url ≠ "" then url else "https://myapps.microsoft.com")
           icon := .str (elementIcon el) }
  else none

/-- The record `extractAppFromElement` pushes for `el` when nothing has been
seen yet, if it pushes one. -/
def recordOf (env : Browser) (el : Element) : Option App :=
  (extractAppFromElement env el { apps := [], seen := [] }).bind fun s => s.apps.head?

/-- The invariant of the two locals of `scrapeApps`: `seen` holds exactly the
names of `apps`, in the same order, each once. -/
def WellFormed (s : ScrapeState) : Prop :=
  s.apps.map App.name = s.seen.map JsVal.str ∧ s.seen.Nodup

/-- The state after the calls `extractAppFromElement(el, apps, seen)` for the
elements of `calls`, in order, whichever loop of `scrapeApps` makes them; a call
that throws leaves both locals as they were. -/
def extractAll (env : Browser) (calls : List Element) (s : ScrapeState) : ScrapeState :=
  calls.foldl (fun acc el => (extractAppFromElement env el acc).getD acc) s

/-- What a sequence of calls appends to `apps`. -/
structure Appended (env : Browser) (calls : List Element) (s out : ScrapeState)
    (new : List App) : Prop where
  apps_eq : out.apps = s.apps ++ new
  order : (new.map some).Sublist (calls.map (recordOf env))
  first : ∀ r ∈ new, ∃ pre el post n, calls = pre ++ el :: post ∧ recordOf env el = some r ∧
    r.name = .str n ∧ n ∉ s.seen ∧ n ≠ "" ∧ jsLength n ≤ 100 ∧
    ∀ e ∈ pre, ∀ r', recordOf env e = some r' → r'.name ≠ r.name

/-- The element is matched by one of the queries `scrapeApps` makes. -/
def Matched (doc : Document) (el : Element) : Prop :=
  ∃ sel els, sel ∈ selectors ++ [signinSelector, clickableSelector] ∧
    doc.querySelectorAll sel = some els ∧ el ∈ els

/-- The first of the listed fields of `item` whose value is truthy, if there is
one: what a chain `item.a || item.b || ...` selects before its last operand. -/
def firstTruthy (item : JsVal) : List String → Option JsVal
  | [] => none
  | key :: rest =>
    if (item.getPropOpt key).truthy then some (item.getPropOpt key)
    else firstTruthy item rest

/-- Specification of the record of one payload item: the name is the first
truthy of the name-like fields, and without one there is no record; url and
icon are the first truthy of their fields, else the empty string. -/
def normalizedItem (item : JsVal) : Option App :=
  (firstTruthy item ["displayName", "name", "appDisplayName"]).map fun name =>
    { name := name
      url := (firstTruthy item ["launchUrl", "loginUrl", "url", "homepageUrl"]).getD (.str "")
      icon := (firstTruthy item ["logoUrl", "iconUrl", "logo"]).getD (.str "") }

/-- The event is a tick of the retry interval. -/
def Event.isRetry : Event → Bool
  | .retry _ _ => true
  | _ => false

/-- The event is a `scrapeApps` message. -/
def Event.isMessage : Event → Bool
  | .scrapeMessage _ _ => true
  | _ => false

/-- The extraction pass the event can run, over the DOM or over a payload, yields
no record. -/
def Event.yieldsNothing (env : Browser) : Event → Prop
  | .mutation => True
  | .debounce doc _ => ∀ apps, scrapeApps env doc = some apps → apps = []
  | .retry doc _ => ∀ apps, scrapeApps env doc = some apps → apps = []
  | .apiResponse data _ => ∀ apps, processApiRecords data = some apps → apps = []
  | .scrapeMessage doc _ => ∀ apps, scrapeApps env doc = some apps → apps = []

/-- The session while every pass has come back empty, after `k` ticks of the
interval: nothing written, the flag down, and both triggers armed until the
tick that brings `retryCount` to `MAX_RETRIES`, both disarmed from then on. -/
def Watching (st : Storage) (k : Nat) (σ : Session) : Prop :=
  σ.storage = st ∧ σ.hasScrapped = false ∧
  ((k < MAX_RETRIES ∧ σ.retryCount = k ∧ σ.retryInterval = true ∧ σ.observing = true) ∨
   (MAX_RETRIES ≤ k ∧ σ.retryCount = MAX_RETRIES ∧ σ.retryInterval = false ∧
     σ.observing = false))

/-- Both triggers are disarmed. -/
def Disarmed (σ : Session) : Prop :=
  σ.retryInterval = false ∧ σ.observing = false

/-- The passes the session can still run without a message: one when a debounce
timer is pending. -/
def pendingPasses (σ : Session) : Nat :=
  σ.passes + (if σ.debounceTimer then 1 else 0)

/-! ## Example data -/

/-- An element for which every read gives nothing. -/
def blank : Element :=
  { ariaLabel := none, title := none, nameText := none, leafText := none, text := "",
    href := none, hrefAttr := none, innerLink := none, outerLink := none,
    img := none, iconImg := none }

/-- The portal page, with a resolver that is right for a plain path reference
against an origin: the origin, a slash when the reference has none, the
reference. -/
def portal : Browser :=
  { origin := "https://myapps.microsoft.com"
    resolveURL := fun u base =>
      some (if jsStartsWith u "/" then base ++ u else base ++ "/" ++ u) }

/-- A tile labelled "App A". -/
def tileA : Element :=
  { blank with ariaLabel := some "App A", href := some "https://myapps.microsoft.com/signin/a1" }

/-- A tile labelled "App B". -/
def tileB : Element :=
  { blank with ariaLabel := some "App B", href := some "https://myapps.microsoft.com/signin/b1" }

/-- A second tile labelled "App A", with another link. -/
def tileA2 : Element :=
  { blank with ariaLabel := some "App A", href := some "https://myapps.microsoft.com/signin/a2" }

/-- A document whose primary selector matches the three tiles and nothing else
matches. -/
def docABA : Document :=
  { querySelectorAll := fun sel =>
      if sel = "[data-automationid=\"AppTile\"]" then some [tileA, tileB, tileA2] else some [] }

/-- A tile whose link is the relative reference of the URL scenario. -/
def relativeTile : Element :=
  { blank with ariaLabel := some "App 1", hrefAttr := some "/signin/app1" }

/-- A tile with an icon and no link at all. -/
def iconOnlyTile : Element :=
  { blank with ariaLabel := some "App 2", img := some "https://myapps.microsoft.com/i.png" }

/-- A tile that is not an anchor (`el.href` is `undefined`) and carries the
relative reference `httpdocs/index.html` in its `href` attribute. -/
def httpdocsTile : Element :=
  { blank with ariaLabel := some "Docs", hrefAttr := some "httpdocs/index.html" }

/-- A label of 101 letters. -/
def longLabel : String := String.mk (List.replicate 101 'a')

/-- A tile whose `aria-label` is too long and whose `title` is short. -/
def longLabelTile : Element :=
  { blank with
      ariaLabel := some longLabel
      title := some "App"
      href := some "https://myapps.microsoft.com/signin/app" }

/-- A document in which the first selector matches the tile "App A", the fourth
selector (`.app-tile`) matches the tile "App B", and nothing else matches. -/
def docTwoSelectors : Document :=
  { querySelectorAll := fun sel =>
      if sel = "[data-automationid=\"AppTile\"]" then some [tileA]
      else if sel = ".app-tile" then some [tileB]
      else some [] }

/-- A document in which no query matches anything. -/
def docEmpty : Document :=
  { querySelectorAll := fun _ => some [] }

/-- A storage area holding nothing, which accepts every write. -/
def emptyStorage : Storage :=
  { data := fun _ => none, setCalls := [], accepts := fun _ => true }

/-- A storage area holding the apps of an earlier run, which rejects every
write. -/
def fullStorage : Storage :=
  { data := fun key =>
      if key = "myApps" then
        some (.apps [{ name := .str "Old", url := .str "https://old/", icon := .str "" }])
      else if key = "lastUpdated" then some (.text "2023-12-31T00:00:00.000Z")
      else none
    setCalls := []
    accepts := fun _ => false }

/-- The payload of the network scenario. -/
def payloadX : JsVal :=
  .obj [("value", .arr [.obj [("appDisplayName", .str "X"), ("loginUrl", .str "https://x/login")]])]

/-- A payload with two items of the same name. -/
def payloadTwice : JsVal :=
  .arr [.obj [("displayName", .str "A"), ("url", .str "https://a/1")],
        .obj [("displayName", .str "A"), ("url", .str "https://a/2")]]

/-- The portal page with a resolver on which `new URL("//", origin)` throws, as it
does in a browser. -/
def strictPortal : Browser :=
  { origin := "https://myapps.microsoft.com"
    resolveURL := fun u base => if u = "//" then none else portal.resolveURL u base }

/-- A tile labelled "Good 1". -/
def goodTile1 : Element :=
  { blank with ariaLabel := some "Good 1", hrefAttr := some "/signin/g1" }

/-- A tile labelled "Bad" whose link is `//`. -/
def badTile : Element :=
  { blank with ariaLabel := some "Bad", hrefAttr := some "//" }

/-- A tile labelled "Good 2". -/
def goodTile2 : Element :=
  { blank with ariaLabel := some "Good 2", hrefAttr := some "/signin/g2" }

/-- A document in which `.app-tile` matches the three tiles, the bad one in the
middle, and nothing else matches. -/
def docBadMiddle : Document :=
  { querySelectorAll := fun sel =>
      if sel = ".app-tile" then some [goodTile1, badTile, goodTile2] else some [] }

/-- The instant 2024-01-15T10:30:45.123Z. -/
def january15 : JsDate :=
  .valid { year := 2024, month := 0, day := 14, hours := 10, minutes := 30, seconds := 45,
           milliseconds := 123 }

/-- A page whose original `fetch` fulfils every call with the response `0`, whose
body is the JSON text of an empty array. -/
def pageFetch : FetchEnv Nat String :=
  { originalFetch := fun _ => .resolved 0
    cloneJson := fun _ => .resolved (.arr [])
    typeError := "TypeError: url.includes is not a function" }

/-- The same page when the body of the response is a stream that never ends. -/
def streamingFetch : FetchEnv Nat String :=
  { originalFetch := fun _ => .resolved 0
    cloneJson := fun _ => .pending
    typeError := "TypeError: url.includes is not a function" }

/-! ## Lemmas on the DOM pass -/

theorem extract_eq (env : Browser) (el : Element) (s : ScrapeState) :
    extractAppFromElement env el s =
      match acceptedName el with
      | none => some s
      | some n =>
        if n ∈ s.seen then some s
        else
          match resolvedUrl env el with
          | none => none
          | some url =>
            match builtRecord el n url with
            | none => some s
            | some r => some { apps := s.apps ++ [r], seen := s.seen ++ [n] } := by
  unfold extractAppFromElement acceptedName builtRecord
  cases hn : elementName el with
  | none => rfl
  | some name =>
    simp only
    by_cases h1 : name = ""
    · simp [h1]
    · by_cases h2 : jsLength name > 100
      · simp [h2]
      · by_cases h3 : name ∈ s.seen
        · simp [h1, h2, h3]
        · simp only [h1, h2, h3, or_self, if_false]
          cases resolvedUrl env el with
          | none => rfl
          | some url =>
            simp only
            split <;> rfl

theorem recordOf_eq (env : Browser) (el : Element) :
    recordOf env el =
      match acceptedName el with
      | none => none
      | some n =>
        match resolvedUrl env el with
        | none => none
        | some url => builtRecord el n url := by
  unfold recordOf
  rw [extract_eq]
  cases acceptedName el with
  | none => rfl
  | some n =>
    simp only [List.not_mem_nil, if_false]
    cases resolvedUrl env el with
    | none => rfl
    | some url =>
      simp only
      cases builtRecord el n url <;> rfl

theorem acceptedName_bound (el : Element) (n : String) (h : acceptedName el = some n) :
    n ≠ "" ∧ jsLength n ≤ 100 := by
  unfold acceptedName at h
  cases hn : elementName el with
  | none => rw [hn] at h; cases h
  | some name =>
    rw [hn] at h
    simp only at h
    split at h
    · cases h
    · rename_i hc
      cases h
      push_neg at hc
      exact ⟨hc.1, by omega⟩

theorem builtRecord_name (el : Element) (n url : String) (r : App)
    (h : builtRecord el n url = some r) : r.name = .str n := by
  unfold builtRecord at h
  split at h
  · cases h; rfl
  · cases h

/-- The three outcomes of one call of `extractAppFromElement`. -/
theorem extract_step (env : Browser) (el : Element) (s : ScrapeState) :
    (extractAppFromElement env el s = none ∧ recordOf env el = none) ∨
    (extractAppFromElement env el s = some s ∧
      ∀ r, recordOf env el = some r → ∃ n, r.name = .str n ∧ n ∈ s.seen) ∨
    ∃ n r, extractAppFromElement env el s =
        some { apps := s.apps ++ [r], seen := s.seen ++ [n] } ∧
      recordOf env el = some r ∧ r.name = .str n ∧ n ∉ s.seen ∧ n ≠ "" ∧ jsLength n ≤ 100 := by
  rw [extract_eq, recordOf_eq]
  cases hn : acceptedName el with
  | none => right; left; exact ⟨rfl, fun r h => by cases h⟩
  | some n =>
    simp only
    by_cases hs : n ∈ s.seen
    · right; left
      refine ⟨by simp [hs], fun r h => ?_⟩
      cases hu : resolvedUrl env el with
      | none => rw [hu] at h; cases h
      | some url =>
        rw [hu] at h
        exact ⟨n, builtRecord_name el n url r h, hs⟩
    · simp only [hs, if_false]
      cases hu : resolvedUrl env el with
      | none => left; exact ⟨rfl, rfl⟩
      | some url =>
        simp only
        cases hb : builtRecord el n url with
        | none => right; left; exact ⟨rfl, fun r h => by cases h⟩
        | some r =>
          right; right
          exact ⟨n, r, rfl, rfl, builtRecord_name el n url r hb, hs,
            (acceptedName_bound el n hn).1, (acceptedName_bound el n hn).2⟩

theorem str_injective : Function.Injective JsVal.str := by
  intro a b h
  cases h
  rfl

theorem wellFormed_push (s : ScrapeState) (r : App) (n : String) (h : WellFormed s)
    (hr : r.name = .str n) (hn : n ∉ s.seen) :
    WellFormed { apps := s.apps ++ [r], seen := s.seen ++ [n] } := by
  refine ⟨?_, ?_⟩
  · simp only [List.map_append, List.map_cons, List.map_nil, h.1, hr]
  · simp only
    rw [List.nodup_append]
    refine ⟨h.2, List.nodup_singleton n, ?_⟩
    intro a ha hb
    rw [List.mem_singleton] at hb
    exact hn (hb ▸ ha)

theorem extractAll_cons (env : Browser) (e : Element) (rest : List Element) (s : ScrapeState) :
    extractAll env (e :: rest) s =
      extractAll env rest ((extractAppFromElement env e s).getD s) := rfl

theorem extractAll_append (env : Browser) (xs ys : List Element) (s : ScrapeState) :
    extractAll env (xs ++ ys) s = extractAll env ys (extractAll env xs s) := by
  unfold extractAll
  rw [List.foldl_append]

theorem extractAll_spec (env : Browser) (calls : List Element) :
    ∀ s : ScrapeState, WellFormed s →
      WellFormed (extractAll env calls s) ∧
      (∃ new, Appended env calls s (extractAll env calls s) new) ∧
      (∀ n ∈ s.seen, n ∈ (extractAll env calls s).seen) ∧
      (∀ el ∈ calls, ∀ r, recordOf env el = some r →
        r.name ∈ (extractAll env calls s).apps.map App.name) := by
  induction calls with
  | nil =>
    intro s hs
    refine ⟨hs, ⟨[], ?_⟩, fun n hn => hn, ?_⟩
    · exact ⟨by simp [extractAll], by simp, fun r hr => by cases hr⟩
    · intro el hel
      cases hel
  | cons e rest ih =>
    intro s hs
    have hskip : ∀ (hfe : extractAll env (e :: rest) s = extractAll env rest s)
        (hrec : ∀ r, recordOf env e = some r → ∃ n, r.name = .str n ∧ n ∈ s.seen),
        WellFormed (extractAll env (e :: rest) s) ∧
        (∃ new, Appended env (e :: rest) s (extractAll env (e :: rest) s) new) ∧
        (∀ n ∈ s.seen, n ∈ (extractAll env (e :: rest) s).seen) ∧
        (∀ el ∈ e :: rest, ∀ r, recordOf env el = some r →
          r.name ∈ (extractAll env (e :: rest) s).apps.map App.name) := by
      intro hfe hrec
      rw [hfe]
      obtain ⟨hwf, ⟨new, hnew⟩, hmono, hall⟩ := ih s hs
      refine ⟨hwf, ⟨new, ?_⟩, hmono, ?_⟩
      · refine ⟨hnew.apps_eq, ?_, ?_⟩
        · rw [List.map_cons]
          exact List.Sublist.cons _ hnew.order
        · intro r' hr'
          obtain ⟨pre, el, post, m, hsplit, hrec', hnm, hm, hm1, hm2, hpre⟩ := hnew.first r' hr'
          refine ⟨e :: pre, el, post, m, by simp [hsplit], hrec', hnm, hm, hm1, hm2, ?_⟩
          intro e' he' r'' hr''
          rcases List.mem_cons.mp he' with rfl | he'
          · obtain ⟨k, hk, hks⟩ := hrec r'' hr''
            rw [hk, hnm]
            intro heq
            exact hm (str_injective heq ▸ hks)
          · exact hpre e' he' r'' hr''
      · intro el hel r' hr'
        rcases List.mem_cons.mp hel with rfl | hel
        · obtain ⟨k, hk, hks⟩ := hrec r' hr'
          rw [hk, hwf.1]
          exact List.mem_map_of_mem _ (hmono k hks)
        · exact hall el hel r' hr'
    rcases extract_step env e s with ⟨h, hnone⟩ | ⟨h, hrec⟩ |
      ⟨n, r, h, hrec, hname, hnot, hne, hlen⟩
    · -- the call threw: both locals are as before
      refine hskip (by rw [extractAll_cons, h]; rfl) ?_
      intro r hr
      rw [hnone] at hr
      cases hr
    · -- nothing pushed
      exact hskip (by rw [extractAll_cons, h]; rfl) hrec
    · -- a record pushed
      have hfe : extractAll env (e :: rest) s =
          extractAll env rest { apps := s.apps ++ [r], seen := s.seen ++ [n] } := by
        rw [extractAll_cons, h]; rfl
      rw [hfe]
      have hs' := wellFormed_push s r n hs hname hnot
      obtain ⟨hwf, ⟨new, hnew⟩, hmono, hall⟩ := ih _ hs'
      refine ⟨hwf, ⟨r :: new, ?_⟩, ?_, ?_⟩
      · refine ⟨?_, ?_, ?_⟩
        · rw [hnew.apps_eq]; simp
        · rw [List.map_cons, List.map_cons, hrec]
          exact List.Sublist.cons₂ _ hnew.order
        · intro r' hr'
          rcases List.mem_cons.mp hr' with rfl | hr'
          · exact ⟨[], e, rest, n, by simp, hrec, hname, hnot, hne, hlen,
              fun e' he' => by cases he'⟩
          · obtain ⟨pre, el, post, m, hsplit, hrec', hnm, hm, hm1, hm2, hpre⟩ :=
              hnew.first r' hr'
            have hm' : m ∉ s.seen ∧ m ≠ n := by
              simp only [List.mem_append, List.mem_singleton, not_or] at hm
              exact hm
            refine ⟨e :: pre, el, post, m, by simp [hsplit], hrec', hnm, hm'.1, hm1, hm2, ?_⟩
            intro e' he' r'' hr''
            rcases List.mem_cons.mp he' with rfl | he'
            · rw [hrec] at hr''
              cases hr''
              rw [hname, hnm]
              intro heq
              exact hm'.2 (str_injective heq).symm
            · exact hpre e' he' r'' hr''
      · intro k hk
        exact hmono k (List.mem_append_left _ hk)
      · intro el hel r' hr'
        rcases List.mem_cons.mp hel with rfl | hel
        · rw [hrec] at hr'
          cases hr'
          rw [hname, hwf.1]
          exact List.mem_map_of_mem _ (hmono n (by simp))
        · exact hall el hel r' hr'

/-- A `forEach` loop makes the calls of a prefix of its list: all of it, or up
to the call that throws. -/
theorem forEachExtract_calls (env : Browser) (els : List Element) :
    ∀ s : ScrapeState, ∃ pre post, els = pre ++ post ∧
      (forEachExtract env els s).1 = extractAll env pre s ∧
      ((forEachExtract env els s).2 = false → post = []) := by
  induction els with
  | nil => intro s; exact ⟨[], [], rfl, rfl, fun _ => rfl⟩
  | cons e rest ih =>
    intro s
    cases h : extractAppFromElement env e s with
    | none =>
      refine ⟨[e], rest, rfl, ?_, ?_⟩
      · simp [forEachExtract, h, extractAll]
      · simp [forEachExtract, h]
    | some s' =>
      obtain ⟨pre, post, hsplit, heq, hpost⟩ := ih s'
      refine ⟨e :: pre, post, by simp [hsplit], ?_, ?_⟩
      · simp only [forEachExtract, h, extractAll_cons, Option.getD_some]
        exact heq
      · simp only [forEachExtract, h]
        exact hpost

theorem scrapeSelectors_calls (env : Browser) (doc : Document) (sels : List String) :
    ∀ s : ScrapeState, ∃ calls,
      (∀ el ∈ calls, ∃ sel els, sel ∈ sels ∧ doc.querySelectorAll sel = some els ∧ el ∈ els) ∧
      scrapeSelectors env doc sels s = extractAll env calls s := by
  induction sels with
  | nil => intro s; exact ⟨[], fun el hel => (by cases hel), rfl⟩
  | cons sel rest ih =>
    intro s
    cases hq : doc.querySelectorAll sel with
    | none =>
      obtain ⟨calls, hfrom, heq⟩ := ih s
      refine ⟨calls, ?_, by simp only [scrapeSelectors, hq]; exact heq⟩
      intro el hel
      obtain ⟨sel', els, hm, hq', hin⟩ := hfrom el hel
      exact ⟨sel', els, List.mem_cons_of_mem _ hm, hq', hin⟩
    | some elements =>
      obtain ⟨pre, post, hsplit, hpre, _⟩ := forEachExtract_calls env elements s
      obtain ⟨calls, hfrom, heq⟩ := ih (forEachExtract env elements s).1
      refine ⟨pre ++ calls, ?_, ?_⟩
      · intro el hel
        rcases List.mem_append.mp hel with h | h
        · exact ⟨sel, elements, List.mem_cons_self _ _, hq,
            hsplit ▸ List.mem_append_left _ h⟩
        · obtain ⟨sel', els, hm, hq', hin⟩ := hfrom el h
          exact ⟨sel', els, List.mem_cons_of_mem _ hm, hq', hin⟩
      · simp only [scrapeSelectors, hq]
        rw [heq, hpre, extractAll_append]

theorem mem_queries_of_selectors {sel : String} (h : sel ∈ selectors) :
    sel ∈ selectors ++ [signinSelector, clickableSelector] :=
  List.mem_append_left _ h

/-- Every pass of `scrapeApps` that returns is a sequence of calls of
`extractAppFromElement` on matched elements, starting from empty locals. -/
theorem scrapeApps_calls (env : Browser) (doc : Document) (apps : List App)
    (h : scrapeApps env doc = some apps) :
    ∃ calls, (∀ el ∈ calls, Matched doc el) ∧
      apps = (extractAll env calls { apps := [], seen := [] }).apps := by
  obtain ⟨c0, hc0, hs0⟩ := scrapeSelectors_calls env doc selectors { apps := [], seen := [] }
  have hm0 : ∀ el ∈ c0, Matched doc el := by
    intro el hel
    obtain ⟨sel, els, hsel, hq, hin⟩ := hc0 el hel
    exact ⟨sel, els, mem_queries_of_selectors hsel, hq, hin⟩
  unfold scrapeApps at h
  simp only [hs0] at h
  -- first fallback
  have key : ∀ (s1 : ScrapeState) (c1 : List Element), (∀ el ∈ c1, Matched doc el) →
      s1 = extractAll env c1 { apps := [], seen := [] } →
      (if s1.apps.length = 0 then
        match doc.querySelectorAll clickableSelector with
        | none => none
        | some candidates =>
          match forEachExtract env (candidates.filter clickableCandidate) s1 with
          | (_, true) => none
          | (s, false) => some s.apps
      else some s1.apps) = some apps →
      ∃ calls, (∀ el ∈ calls, Matched doc el) ∧
        apps = (extractAll env calls { apps := [], seen := [] }).apps := by
    intro s1 c1 hm1 hs1 h2
    split at h2
    · cases hq : doc.querySelectorAll clickableSelector with
      | none => rw [hq] at h2; cases h2
      | some candidates =>
        rw [hq] at h2
        simp only at h2
        obtain ⟨pre, post, hsplit, hpre, _⟩ :=
          forEachExtract_calls env (candidates.filter clickableCandidate) s1
        split at h2
        · cases h2
        · rename_i s hfe
          cases h2
          refine ⟨c1 ++ pre, ?_, ?_⟩
          · intro el hel
            rcases List.mem_append.mp hel with hel | hel
            · exact hm1 el hel
            · have : el ∈ candidates.filter clickableCandidate :=
                hsplit ▸ List.mem_append_left _ hel
              exact ⟨clickableSelector, candidates, by simp, hq, (List.mem_filter.mp this).1⟩
          · rw [extractAll_append, ← hs1, ← hpre, hfe]
    · cases h2
      exact ⟨c1, hm1, by rw [hs1]⟩
  split at h
  · rename_i r1 hr1
    cases h
  · rename_i r1 s1 hr1
    split at hr1
    · cases hq : doc.querySelectorAll signinSelector with
      | none => rw [hq] at hr1; cases hr1
      | some links =>
        rw [hq] at hr1
        simp only at hr1
        obtain ⟨pre, post, hsplit, hpre, _⟩ :=
          forEachExtract_calls env links (extractAll env c0 { apps := [], seen := [] })
        split at hr1
        · cases hr1
        · rename_i s hfe
          cases hr1
          refine key s1 (c0 ++ pre) ?_ ?_ h
          · intro el hel
            rcases List.mem_append.mp hel with hel | hel
            · exact hm0 el hel
            · exact ⟨signinSelector, links, by simp, hq, hsplit ▸ List.mem_append_left _ hel⟩
          · rw [extractAll_append, ← hpre, hfe]
    · cases hr1
      exact key _ c0 hm0 rfl h

/-! ## The claims -/

/-- C1: in one pass of `scrapeApps` the calls of `extractAppFromElement` share the
locals `apps` and `seen`. For every sequence of calls from empty locals the
names of the records are pairwise distinct, the records keep the order of the
calls, each record is the one built from the first candidate that builds a
record of that name, and every candidate that builds a record has its name in
the result. Every pass that returns is such a sequence of calls on elements the
document matches. -/
theorem scrape_pass_names_unique_first_seen (env : Browser) :
    (∀ calls : List Element,
      ((extractAll env calls { apps := [], seen := [] }).apps.map App.name).Nodup ∧
      ((extractAll env calls { apps := [], seen := [] }).apps.map some).Sublist
        (calls.map (recordOf env)) ∧
      (∀ r ∈ (extractAll env calls { apps := [], seen := [] }).apps,
        ∃ pre el post, calls = pre ++ el :: post ∧ recordOf env el = some r ∧
          ∀ e ∈ pre, ∀ r', recordOf env e = some r' → r'.name ≠ r.name) ∧
      (∀ el ∈ calls, ∀ r, recordOf env el = some r →
        r.name ∈ (extractAll env calls { apps := [], seen := [] }).apps.map App.name)) ∧
    (∀ doc apps, scrapeApps env doc = some apps →
      ∃ calls, (∀ el ∈ calls, Matched doc el) ∧
        apps = (extractAll env calls { apps := [], seen := [] }).apps) := by
  refine ⟨fun calls => ?_, fun doc apps h => scrapeApps_calls env doc apps h⟩
  have h0 : WellFormed { apps := [], seen := [] } := ⟨rfl, List.nodup_nil⟩
  obtain ⟨hwf, ⟨new, hnew⟩, _, hall⟩ := extractAll_spec env calls _ h0
  have happs : (extractAll env calls { apps := [], seen := [] }).apps = new := by
    rw [hnew.apps_eq]; rfl
  refine ⟨?_, ?_, ?_, hall⟩
  · rw [hwf.1]
    exact hwf.2.map str_injective
  · rw [happs]
    exact hnew.order
  · intro r hr
    rw [happs] at hr
    obtain ⟨pre, el, post, n, hsplit, hrec, _, _, _, _, hpre⟩ := hnew.first r hr
    exact ⟨pre, el, post, hsplit, hrec, hpre⟩

/-- The scenario of C1: tiles "App A", "App B", "App A" give two records, "App A"
with the link of the first tile. -/
theorem scrape_pass_names_unique_first_seen_witness :
    scrapeApps portal docABA =
      some [{ name := .str "App A", url := .str "https://myapps.microsoft.com/signin/a1",
              icon := .str "" },
            { name := .str "App B", url := .str "https://myapps.microsoft.com/signin/b1",
              icon := .str "" }] ∧
    (extractAll portal [tileA, tileB, tileA2] { apps := [], seen := [] }).apps =
      [{ name := .str "App A", url := .str "https://myapps.microsoft.com/signin/a1",
         icon := .str "" },
       { name := .str "App B", url := .str "https://myapps.microsoft.com/signin/b1",
         icon := .str "" }] ∧
    ((extractAll portal [tileA, tileB, tileA2] { apps := [], seen := [] }).apps.map
      App.name).Nodup ∧
    ∃ calls, (∀ el ∈ calls, Matched docABA el) ∧
      [{ name := .str "App A", url := .str "https://myapps.microsoft.com/signin/a1",
         icon := .str "" },
       { name := .str "App B", url := .str "https://myapps.microsoft.com/signin/b1",
         icon := .str "" }] = (extractAll portal calls { apps := [], seen := [] }).apps :=
  ⟨rfl, rfl,
    ((scrape_pass_names_unique_first_seen portal).1 [tileA, tileB, tileA2]).1,
    (scrape_pass_names_unique_first_seen portal).2 docABA _ rfl⟩

theorem length_le_jsLength (n : String) : n.length ≤ jsLength n := by
  have h : ∀ l : List Char, l.length ≤ (l.map utf16Units).sum := by
    intro l
    induction l with
    | nil => simp
    | cons c cs ih =>
      simp only [List.length_cons, List.map_cons, List.sum_cons]
      have : 1 ≤ utf16Units c := by
        unfold utf16Units
        split <;> omega
      omega
  exact h n.toList

theorem acceptedName_none_of_rejected (el : Element)
    (h : ∀ n, elementName el = some n → n = "" ∨ jsLength n > 100) :
    acceptedName el = none := by
  unfold acceptedName
  cases hn : elementName el with
  | none => rfl
  | some n => simp only [h n hn, if_true]

/-- C7 (the code at the failing input): on the portal the relative reference
`/signin/app1` is rewritten against the origin and a tile with only an icon
gets the portal home URL, but the relative reference `httpdocs/index.html`,
which begins with the letters `http`, is pushed as it is, whatever `new URL`
would make of it. -/
theorem relative_href_starting_http_kept :
    extractAppFromElement portal relativeTile { apps := [], seen := [] } =
      some { apps := [{ name := .str "App 1",
                        url := .str "https://myapps.microsoft.com/signin/app1",
                        icon := .str "" }],
             seen := ["App 1"] } ∧
    extractAppFromElement portal iconOnlyTile { apps := [], seen := [] } =
      some { apps := [{ name := .str "App 2",
                        url := .str "https://myapps.microsoft.com",
                        icon := .str "https://myapps.microsoft.com/i.png" }],
             seen := ["App 2"] } ∧
    portal.resolveURL "httpdocs/index.html" portal.origin =
      some "https://myapps.microsoft.com/httpdocs/index.html" ∧
    ∀ env : Browser, extractAppFromElement env httpdocsTile { apps := [], seen := [] } =
      some { apps := [{ name := .str "Docs", url := .str "httpdocs/index.html",
                        icon := .str "" }],
             seen := ["Docs"] } :=
  ⟨rfl, rfl, rfl, fun _ => rfl⟩

/-- C8: every record of a pass of `scrapeApps` has a string name that is not empty
and has at most 100 UTF-16 code units (so at most 100 characters); a candidate
whose derived name is empty or longer than 100 leaves `apps` and `seen` as they
were. -/
theorem scrape_names_nonempty_bounded (env : Browser) :
    (∀ doc apps, scrapeApps env doc = some apps →
      ∀ r ∈ apps, ∃ n, r.name = .str n ∧ n ≠ "" ∧ jsLength n ≤ 100 ∧ n.length ≤ 100) ∧
    (∀ el s, (∀ n, elementName el = some n → n = "" ∨ jsLength n > 100 ∨ n.length > 100) →
      extractAppFromElement env el s = some s) := by
  refine ⟨?_, ?_⟩
  · intro doc apps h r hr
    obtain ⟨calls, _, happs⟩ := scrapeApps_calls env doc apps h
    have h0 : WellFormed { apps := [], seen := [] } := ⟨rfl, List.nodup_nil⟩
    obtain ⟨_, ⟨new, hnew⟩, _, _⟩ := extractAll_spec env calls _ h0
    have hmem : r ∈ new := by
      have : (extractAll env calls { apps := [], seen := [] }).apps = new := by
        rw [hnew.apps_eq]; rfl
      rw [← this, ← happs]
      exact hr
    obtain ⟨_, _, _, n, _, _, hname, _, hne, hlen, _⟩ := hnew.first r hmem
    exact ⟨n, hname, hne, hlen, le_trans (length_le_jsLength n) hlen⟩
  · intro el s h
    rw [extract_eq, acceptedName_none_of_rejected el]
    intro n hn
    rcases h n hn with h1 | h2 | h3
    · exact Or.inl h1
    · exact Or.inr h2
    · exact Or.inr (lt_of_lt_of_le h3 (length_le_jsLength n))

/-- A pass with a record, and a too long label that changes nothing. -/
theorem scrape_names_nonempty_bounded_witness :
    (∀ r ∈ [({ name := .str "App A", url := .str "https://myapps.microsoft.com/signin/a1",
               icon := .str "" } : App),
            { name := .str "App B", url := .str "https://myapps.microsoft.com/signin/b1",
              icon := .str "" }],
      ∃ n, r.name = .str n ∧ n ≠ "" ∧ jsLength n ≤ 100 ∧ n.length ≤ 100) ∧
    extractAppFromElement portal { longLabelTile with title := none }
      { apps := [], seen := ["X"] } = some { apps := [], seen := ["X"] } :=
  ⟨(scrape_names_nonempty_bounded portal).1 docABA _ rfl,
   (scrape_names_nonempty_bounded portal).2 { longLabelTile with title := none } _
     (fun n hn => by
        have : n = longLabel := by
          have h2 : elementName { longLabelTile with title := none } = some longLabel := rfl
          rw [h2] at hn
          exact (Option.some.inj hn).symm
        subst this
        exact Or.inr (Or.inl (by decide)))⟩

/-- C9 (as stated, refuted): a tile whose `aria-label` has 101 letters and whose
`title` is "App" is not admitted under the name "App": the call pushes nothing. -/
theorem long_label_short_title_rejected :
    longLabelTile.ariaLabel = some longLabel ∧ jsLength longLabel = 101 ∧
    longLabelTile.title = some "App" ∧ jsLength "App" = 3 ∧
    extractAppFromElement portal longLabelTile { apps := [], seen := [] } =
      some { apps := [], seen := [] } :=
  ⟨rfl, by decide, rfl, by decide, rfl⟩

/-- C9 (amended): the name is the first non-empty source in the order aria-label,
title, name-like-class text, leaf text, and the full text when these are all
empty; the bound is checked on that name only. A name longer than 100 rejects
the candidate whatever the later sources hold. With a non-empty name within the
bound that is not yet seen the call goes on under that name: it throws, pushing
nothing, when `new URL` throws on the link; otherwise it pushes the record with
that name when there is a URL or an icon, and pushes nothing when there is
neither. -/
theorem name_first_nonempty_then_bound (env : Browser) (el : Element) (s : ScrapeState) :
    elementName el = some
      ((([el.ariaLabel, el.title, el.nameText, el.leafText].filterMap id).find?
        (fun x => x != "")).getD el.text) ∧
    (∀ n, elementName el = some n → jsLength n > 100 →
      extractAppFromElement env el s = some s) ∧
    (∀ n, elementName el = some n → n ≠ "" → jsLength n ≤ 100 → n ∉ s.seen →
      (resolvedUrl env el = none → extractAppFromElement env el s = none) ∧
      (∀ u, resolvedUrl env el = some u → (u ≠ "" ∨ elementIcon el ≠ "") →
        extractAppFromElement env el s =
          some { apps := s.apps ++
                   [{ name := .str n
                      url := .str (if u ≠ "" then u else "https://myapps.microsoft.com")
                      icon := .str (elementIcon el) }]
                 seen := s.seen ++ [n] }) ∧
      (∀ u, resolvedUrl env el = some u → u = "" → elementIcon el = "" →
        extractAppFromElement env el s = some s)) := by
  refine ⟨?_, ?_, ?_⟩
  · obtain ⟨a, t, nm, lf, tx, _, _, _, _, _, _⟩ := el
    simp only [elementName]
    cases a <;> cases t <;> cases nm <;> cases lf <;>
      simp [strOr, List.find?] <;> (repeat' split) <;> simp_all
  · intro n hn hlen
    rw [extract_eq, acceptedName_none_of_rejected el]
    intro m hm
    rw [hn] at hm
    cases hm
    exact Or.inr hlen
  · intro n hn hne hlen hseen
    have h1 : ¬ (n = "" ∨ jsLength n > 100 ∨ n ∈ s.seen) := by
      push_neg
      exact ⟨hne, hlen, hseen⟩
    refine ⟨?_, ?_, ?_⟩
    · intro hu
      unfold extractAppFromElement
      rw [hn]
      simp only
      rw [if_neg h1, hu]
    · intro u hu hrec
      unfold extractAppFromElement
      rw [hn]
      simp only
      rw [if_neg h1, hu]
      simp only [hrec, if_true]
    · intro u hu hempty hicon
      unfold extractAppFromElement
      rw [hn]
      simp only
      rw [if_neg h1, hu]
      simp only [hempty, hicon, ne_eq, not_true_eq_false, or_self, if_false]

/-- The too long label, the tile "App A" on the portal, and the tile "Bad" whose
link makes `new URL` throw. -/
theorem name_first_nonempty_then_bound_witness :
    extractAppFromElement portal longLabelTile { apps := [], seen := [] } =
      some { apps := [], seen := [] } ∧
    extractAppFromElement portal tileA { apps := [], seen := [] } =
      some { apps := [] ++
               [{ name := .str "App A"
                  url := .str (if "https://myapps.microsoft.com/signin/a1" ≠ "" then
                    "https://myapps.microsoft.com/signin/a1" else "https://myapps.microsoft.com")
                  icon := .str (elementIcon tileA) }]
             seen := [] ++ ["App A"] } ∧
    extractAppFromElement strictPortal badTile { apps := [], seen := [] } = none :=
  ⟨(name_first_nonempty_then_bound portal longLabelTile _).2.1 longLabel rfl (by decide),
   ((name_first_nonempty_then_bound portal tileA _).2.2 "App A" rfl (by decide) (by decide)
      (by simp)).2.1 "https://myapps.microsoft.com/signin/a1" rfl (Or.inl (by decide)),
   ((name_first_nonempty_then_bound strictPortal badTile _).2.2 "Bad" rfl (by decide)
      (by decide) (by simp)).1 rfl⟩

theorem resolvedUrl_none_of_throw (env : Browser) (el : Element) (s : ScrapeState)
    (h : extractAppFromElement env el s = none) : resolvedUrl env el = none := by
  rw [extract_eq] at h
  cases hn : acceptedName el with
  | none => rw [hn] at h; cases h
  | some n =>
    rw [hn] at h
    simp only at h
    split at h
    · cases h
    · cases hu : resolvedUrl env el with
      | none => rfl
      | some url =>
        rw [hu] at h
        simp only at h
        cases hb : builtRecord el n url with
        | none => rw [hb] at h; cases h
        | some r => rw [hb] at h; cases h

/-- A `forEach` loop calls `extractAppFromElement` on an element of its list when
`new URL` throws on none of the elements before it. -/
theorem forEachExtract_reaches (env : Browser) (pre : List Element) (el : Element)
    (post : List Element) :
    ∀ s : ScrapeState, (∀ e ∈ pre, resolvedUrl env e ≠ none) →
      ∃ calls, el ∈ calls ∧
        (forEachExtract env (pre ++ el :: post) s).1 = extractAll env calls s := by
  induction pre with
  | nil =>
    intro s _
    cases h : extractAppFromElement env el s with
    | none =>
      refine ⟨[el], List.mem_singleton.mpr rfl, ?_⟩
      simp [forEachExtract, h, extractAll]
    | some s' =>
      obtain ⟨calls, _, _, heq, _⟩ := forEachExtract_calls env post s'
      refine ⟨el :: calls, List.mem_cons_self _ _, ?_⟩
      simp only [List.nil_append, forEachExtract, h, extractAll_cons, Option.getD_some]
      exact heq
  | cons e rest ih =>
    intro s hpre
    cases h : extractAppFromElement env e s with
    | none =>
      exact absurd (resolvedUrl_none_of_throw env e s h) (hpre e (List.mem_cons_self _ _))
    | some s' =>
      obtain ⟨calls, hmem, heq⟩ := ih s' (fun x hx => hpre x (List.mem_cons_of_mem _ hx))
      refine ⟨e :: calls, List.mem_cons_of_mem _ hmem, ?_⟩
      simp only [List.cons_append, forEachExtract, h, extractAll_cons, Option.getD_some]
      exact heq

theorem scrapeSelectors_reaches (env : Browser) (doc : Document) (sels : List String) :
    ∀ (s : ScrapeState) (sel : String), sel ∈ sels →
      ∀ pre el post, doc.querySelectorAll sel = some (pre ++ el :: post) →
        (∀ e ∈ pre, resolvedUrl env e ≠ none) →
        ∃ calls, el ∈ calls ∧ scrapeSelectors env doc sels s = extractAll env calls s := by
  induction sels with
  | nil => intro s sel hsel; cases hsel
  | cons sel0 rest ih =>
    intro s sel hsel pre el post hq hpre
    by_cases hhere : sel = sel0
    · subst hhere
      obtain ⟨c1, hmem, h1⟩ := forEachExtract_reaches env pre el post s hpre
      obtain ⟨c2, _, h2⟩ :=
        scrapeSelectors_calls env doc rest (forEachExtract env (pre ++ el :: post) s).1
      refine ⟨c1 ++ c2, List.mem_append_left _ hmem, ?_⟩
      simp only [scrapeSelectors, hq]
      rw [h2, h1, extractAll_append]
    · have hrest : sel ∈ rest := by
        rcases List.mem_cons.mp hsel with h | h
        · exact absurd h hhere
        · exact h
      cases hq0 : doc.querySelectorAll sel0 with
      | none =>
        obtain ⟨calls, hmem, heq⟩ := ih s sel hrest pre el post hq hpre
        exact ⟨calls, hmem, by simp only [scrapeSelectors, hq0]; exact heq⟩
      | some els0 =>
        obtain ⟨c1, _, _, h1, _⟩ := forEachExtract_calls env els0 s
        obtain ⟨c2, hmem, h2⟩ :=
          ih (forEachExtract env els0 s).1 sel hrest pre el post hq hpre
        refine ⟨c1 ++ c2, List.mem_append_right _ hmem, ?_⟩
        simp only [scrapeSelectors, hq0]
        rw [h2, h1, extractAll_append]

theorem scrapeApps_of_selectors_nonempty (env : Browser) (doc : Document)
    (h : (scrapeSelectors env doc selectors { apps := [], seen := [] }).apps ≠ []) :
    scrapeApps env doc =
      some (scrapeSelectors env doc selectors { apps := [], seen := [] }).apps := by
  have hlen : ¬ (scrapeSelectors env doc selectors { apps := [], seen := [] }).apps.length = 0 := by
    intro h0
    exact h (List.length_eq_zero.mp h0)
  unfold scrapeApps
  simp only [hlen, if_false]

/-- C4 (as stated, refuted): the first selector yields the record "App A", and the
record "App B" of the fourth selector is in the result all the same. -/
theorem later_selector_contributes :
    docTwoSelectors.querySelectorAll "[data-automationid=\"AppTile\"]" = some [tileA] ∧
    (forEachExtract portal [tileA] { apps := [], seen := [] }).1.apps =
      [{ name := .str "App A", url := .str "https://myapps.microsoft.com/signin/a1",
         icon := .str "" }] ∧
    docTwoSelectors.querySelectorAll ".app-tile" = some [tileB] ∧
    scrapeApps portal docTwoSelectors =
      some [{ name := .str "App A", url := .str "https://myapps.microsoft.com/signin/a1",
              icon := .str "" },
            { name := .str "App B", url := .str "https://myapps.microsoft.com/signin/b1",
              icon := .str "" }] :=
  ⟨rfl, rfl, rfl, rfl⟩

/-- C4 (amended): the ten selectors are all evaluated and their records
accumulate; only the two fallbacks are conditional. When the selectors yield a
record the result is exactly what the selectors gave; when they yield none and
the signin-link fallback yields a record the result is exactly what that
fallback gave. An element matched by any of the ten selectors that builds a
record has its name in the result, provided `new URL` throws on no element
before it in the match list of that selector: an exception ends the `forEach` of
that selector only. -/
theorem selectors_accumulate_fallbacks_gated (env : Browser) (doc : Document) :
    ((scrapeSelectors env doc selectors { apps := [], seen := [] }).apps ≠ [] →
      scrapeApps env doc =
        some (scrapeSelectors env doc selectors { apps := [], seen := [] }).apps) ∧
    (∀ links s1,
      (scrapeSelectors env doc selectors { apps := [], seen := [] }).apps = [] →
      doc.querySelectorAll signinSelector = some links →
      forEachExtract env links (scrapeSelectors env doc selectors { apps := [], seen := [] }) =
        (s1, false) →
      s1.apps ≠ [] → scrapeApps env doc = some s1.apps) ∧
    (∀ sel ∈ selectors, ∀ pre el post, doc.querySelectorAll sel = some (pre ++ el :: post) →
      (∀ e ∈ pre, resolvedUrl env e ≠ none) →
      ∀ r, recordOf env el = some r →
        ∃ apps, scrapeApps env doc = some apps ∧ r.name ∈ apps.map App.name) := by
  refine ⟨scrapeApps_of_selectors_nonempty env doc, ?_, ?_⟩
  · intro links s1 h0 hq hfe hne
    have hlen : ¬ s1.apps.length = 0 := fun h => hne (List.length_eq_zero.mp h)
    unfold scrapeApps
    simp only [h0, List.length_nil, if_true, hq, hfe, hlen, if_false]
  · intro sel hsel pre el post hq hpre r hr
    obtain ⟨calls, hmem, hall⟩ :=
      scrapeSelectors_reaches env doc selectors { apps := [], seen := [] } sel hsel pre el post
        hq hpre
    have h0 : WellFormed { apps := [], seen := [] } := ⟨rfl, List.nodup_nil⟩
    obtain ⟨_, _, _, hcomplete⟩ := extractAll_spec env calls _ h0
    have hin := hcomplete el hmem r hr
    rw [← hall] at hin
    refine ⟨_, scrapeApps_of_selectors_nonempty env doc ?_, hin⟩
    intro hnil
    rw [hnil] at hin
    cases hin

/-- On the document with two selectors matching, the tile of the fourth selector
is in the result, which is what the selectors gave; on the document whose
middle tile makes `new URL` throw, the tile before it is in the result and the
tile after it is not. -/
theorem selectors_accumulate_fallbacks_gated_witness :
    scrapeApps portal docTwoSelectors =
      some (scrapeSelectors portal docTwoSelectors selectors { apps := [], seen := [] }).apps ∧
    (∃ apps, scrapeApps portal docTwoSelectors = some apps ∧
      JsVal.str "App B" ∈ apps.map App.name) ∧
    (∃ apps, scrapeApps strictPortal docBadMiddle = some apps ∧
      JsVal.str "Good 1" ∈ apps.map App.name) ∧
    scrapeApps strictPortal docBadMiddle =
      some [{ name := .str "Good 1", url := .str "https://myapps.microsoft.com/signin/g1",
              icon := .str "" }] :=
  ⟨(selectors_accumulate_fallbacks_gated portal docTwoSelectors).1
      (by
        have h : (scrapeSelectors portal docTwoSelectors selectors
            { apps := [], seen := [] }).apps =
            [{ name := .str "App A", url := .str "https://myapps.microsoft.com/signin/a1",
               icon := .str "" },
             { name := .str "App B", url := .str "https://myapps.microsoft.com/signin/b1",
               icon := .str "" }] := rfl
        rw [h]
        exact List.cons_ne_nil _ _),
   (selectors_accumulate_fallbacks_gated portal docTwoSelectors).2.2
      ".app-tile" (by decide) [] tileB [] rfl (fun _ h => (by cases h))
      { name := .str "App B", url := .str "https://myapps.microsoft.com/signin/b1",
        icon := .str "" } rfl,
   (selectors_accumulate_fallbacks_gated strictPortal docBadMiddle).2.2
      ".app-tile" (by decide) [] goodTile1 [badTile, goodTile2] rfl (fun _ h => (by cases h))
      { name := .str "Good 1", url := .str "https://myapps.microsoft.com/signin/g1",
        icon := .str "" } rfl,
   rfl⟩

theorem saveApps_of_ne_nil (now : String) (apps : List App) (st : Storage) (h : apps ≠ []) :
    saveApps now apps st =
      (st.set [("myApps", Stored.apps apps), ("lastUpdated", Stored.text now)]).1 := by
  have hlen : ¬ apps.length = 0 := fun h0 => h (List.length_eq_zero.mp h0)
  unfold saveApps
  rw [if_neg hlen]
  split <;> rename_i heq <;> rw [heq]

/-- C3 (as stated, refuted): on a store that rejects the write, `saveApps` with one
record issues its `set` call and the two keys keep the values of the earlier
run. -/
theorem rejected_write_keeps_old_values :
    (saveApps "2024-01-01T00:00:00.000Z"
        [{ name := .str "App A", url := .str "u", icon := .str "" }] fullStorage).setCalls =
      [[("myApps", Stored.apps [{ name := .str "App A", url := .str "u", icon := .str "" }]),
        ("lastUpdated", Stored.text "2024-01-01T00:00:00.000Z")]] ∧
    (saveApps "2024-01-01T00:00:00.000Z"
        [{ name := .str "App A", url := .str "u", icon := .str "" }] fullStorage).data "myApps" =
      some (Stored.apps [{ name := .str "Old", url := .str "https://old/", icon := .str "" }]) ∧
    (saveApps "2024-01-01T00:00:00.000Z"
        [{ name := .str "App A", url := .str "u", icon := .str "" }] fullStorage).data
        "lastUpdated" = some (Stored.text "2023-12-31T00:00:00.000Z") :=
  ⟨rfl, rfl, rfl⟩

/-- C3 (amended): `saveApps` with an empty list returns the storage as it is, no
`set` issued; with a non-empty list it issues exactly one `set`, carrying that
list under `myApps` and the timestamp under `lastUpdated`. When the store
accepts the write both keys hold these values afterwards and every other key
is as before; when the store rejects it, which `saveApps` catches, every key is
as before. A `scrapeApps` message whose pass yields no record (or throws)
leaves the storage as it is. -/
theorem saveApps_empty_keeps_nonempty_sets (now : String) (st : Storage) :
    saveApps now [] st = st ∧
    (∀ apps : List App, apps ≠ [] →
      (saveApps now apps st).setCalls =
        st.setCalls ++ [[("myApps", Stored.apps apps), ("lastUpdated", Stored.text now)]] ∧
      (st.accepts [("myApps", Stored.apps apps), ("lastUpdated", Stored.text now)] = true →
        (saveApps now apps st).data "myApps" = some (Stored.apps apps) ∧
        (saveApps now apps st).data "lastUpdated" = some (Stored.text now) ∧
        ∀ key, key ≠ "myApps" → key ≠ "lastUpdated" →
          (saveApps now apps st).data key = st.data key) ∧
      (st.accepts [("myApps", Stored.apps apps), ("lastUpdated", Stored.text now)] = false →
        (saveApps now apps st).data = st.data)) ∧
    (∀ env doc (σ : Session), σ.storage = st →
      (scrapeApps env doc = some [] ∨ scrapeApps env doc = none) →
      (step env σ (.scrapeMessage doc now)).storage = st) := by
  refine ⟨rfl, ?_, ?_⟩
  · intro apps hne
    rw [saveApps_of_ne_nil now apps st hne]
    cases hacc : st.accepts [("myApps", Stored.apps apps), ("lastUpdated", Stored.text now)] with
    | true =>
      have hset : (st.set [("myApps", Stored.apps apps), ("lastUpdated", Stored.text now)]).1 =
          { st with
              data := fun key =>
                match List.lookup key
                  [("myApps", Stored.apps apps), ("lastUpdated", Stored.text now)] with
                | some v => some v
                | none => st.data key
              setCalls := st.setCalls ++
                [[("myApps", Stored.apps apps), ("lastUpdated", Stored.text now)]] } := by
        simp only [Storage.set, hacc, if_true]
      rw [hset]
      refine ⟨rfl, fun _ => ⟨rfl, rfl, ?_⟩, fun h => (by cases h)⟩
      intro key h1 h2
      simp only [List.lookup]
      have e1 : (key == "myApps") = false := by simpa using h1
      have e2 : (key == "lastUpdated") = false := by simpa using h2
      simp only [e1, e2]
    | false =>
      have hset : (st.set [("myApps", Stored.apps apps), ("lastUpdated", Stored.text now)]).1 =
          { st with
              setCalls := st.setCalls ++
                [[("myApps", Stored.apps apps), ("lastUpdated", Stored.text now)]] } := by
        simp only [Storage.set, hacc, Bool.false_eq_true, if_false]
      rw [hset]
      exact ⟨rfl, fun h => (by cases h), fun _ => rfl⟩
  · intro env doc σ hst h
    simp only [step]
    split
    · rcases h with h | h
      · rw [h]
        exact hst
      · rw [h]
        exact hst
    · exact hst

/-- A save of one record on the store that accepts and on the store that rejects,
and a message on the empty document. -/
theorem saveApps_empty_keeps_nonempty_sets_witness :
    (saveApps "2024-01-01T00:00:00.000Z"
        [{ name := .str "App A", url := .str "u", icon := .str "" }] emptyStorage).data "myApps" =
      some (Stored.apps [{ name := .str "App A", url := .str "u", icon := .str "" }]) ∧
    (saveApps "2024-01-01T00:00:00.000Z"
        [{ name := .str "App A", url := .str "u", icon := .str "" }] fullStorage).data =
      fullStorage.data ∧
    (step portal (main portal docEmpty "2024-01-01T00:00:00.000Z" emptyStorage)
      (.scrapeMessage docEmpty "2024-01-01T00:00:00.000Z")).storage = emptyStorage :=
  ⟨(((saveApps_empty_keeps_nonempty_sets "2024-01-01T00:00:00.000Z" emptyStorage).2.1
      [{ name := .str "App A", url := .str "u", icon := .str "" }]
      (List.cons_ne_nil _ _)).2.1 rfl).1,
   ((saveApps_empty_keeps_nonempty_sets "2024-01-01T00:00:00.000Z" fullStorage).2.1
      [{ name := .str "App A", url := .str "u", icon := .str "" }]
      (List.cons_ne_nil _ _)).2.2 rfl,
   (saveApps_empty_keeps_nonempty_sets "2024-01-01T00:00:00.000Z" emptyStorage).2.2
      portal docEmpty _ rfl (Or.inl rfl)⟩

/-! ### Network payloads -/

theorem getProp_of_defined (item : JsVal) (key : String)
    (h : item ≠ .null ∧ item ≠ .undefined) :
    item.getProp key = some (item.getPropOpt key) := by
  cases item with
  | undefined => exact absurd rfl h.2
  | null => exact absurd rfl h.1
  | bool b => rfl
  | num n => rfl
  | str s => rfl
  | arr items => rfl
  | obj fields => rfl

theorem or_chain_two (a b c e : JsVal) :
    ((a.or b).or c).or e =
      (if a.truthy then some a else if b.truthy then some b
        else if c.truthy then some c else none).getD e := by
  by_cases ha : a.truthy <;> by_cases hb : b.truthy <;> by_cases hc : c.truthy <;>
    simp [JsVal.or, ha, hb, hc]

theorem or_chain_three (a b c d e : JsVal) :
    (((a.or b).or c).or d).or e =
      (if a.truthy then some a else if b.truthy then some b
        else if c.truthy then some c else if d.truthy then some d else none).getD e := by
  by_cases ha : a.truthy <;> by_cases hb : b.truthy <;> by_cases hc : c.truthy <;>
    by_cases hd : d.truthy <;> simp [JsVal.or, ha, hb, hc, hd]

theorem processApiItem_of_defined (item : JsVal) (apps : List App)
    (h : item ≠ .null ∧ item ≠ .undefined) :
    processApiItem item apps = some (apps ++ (normalizedItem item).toList) := by
  unfold processApiItem
  rw [getProp_of_defined item _ h]
  simp only [Option.bind_eq_bind, Option.some_bind]
  rw [or_chain_three (item.getPropOpt "launchUrl") (item.getPropOpt "loginUrl")
      (item.getPropOpt "url") (item.getPropOpt "homepageUrl") (.str ""),
    or_chain_two (item.getPropOpt "logoUrl") (item.getPropOpt "iconUrl")
      (item.getPropOpt "logo") (.str "")]
  simp only [normalizedItem, firstTruthy, JsVal.or]
  by_cases h1 : (item.getPropOpt "displayName").truthy
  · simp [h1]
  · by_cases h2 : (item.getPropOpt "name").truthy
    · simp [h1, h2]
    · by_cases h3 : (item.getPropOpt "appDisplayName").truthy
      · simp [h1, h2, h3]
      · simp [h1, h2, h3]

theorem processApiItem_none (item : JsVal) (apps : List App)
    (h : ¬ (item ≠ .null ∧ item ≠ .undefined)) : processApiItem item apps = none := by
  have : item = .null ∨ item = .undefined := by
    by_contra hc
    push_neg at hc
    exact h hc
  rcases this with rfl | rfl <;> rfl

theorem processApiLoop_of_defined (items : List JsVal) :
    ∀ apps, (∀ item ∈ items, item ≠ .null ∧ item ≠ .undefined) →
      processApiLoop items apps = some (apps ++ items.filterMap normalizedItem) := by
  induction items with
  | nil => intro apps _; simp [processApiLoop]
  | cons item rest ih =>
    intro apps h
    have hi := h item (List.mem_cons_self _ _)
    have hr := fun x hx => h x (List.mem_cons_of_mem _ hx)
    simp only [processApiLoop, processApiItem_of_defined item apps hi]
    rw [ih _ hr]
    cases hn : normalizedItem item with
    | none => simp [List.filterMap_cons, hn]
    | some r => simp [List.filterMap_cons, hn]

theorem processApiLoop_defined (items : List JsVal) :
    ∀ apps out, processApiLoop items apps = some out →
      ∀ item ∈ items, item ≠ .null ∧ item ≠ .undefined := by
  induction items with
  | nil => intro _ _ _ item hitem; cases hitem
  | cons item rest ih =>
    intro apps out h x hx
    by_cases hd : item ≠ .null ∧ item ≠ .undefined
    · rcases List.mem_cons.mp hx with rfl | hx
      · exact hd
      · simp only [processApiLoop, processApiItem_of_defined item apps hd] at h
        exact ih _ out h x hx
    · simp only [processApiLoop, processApiItem_none item apps hd] at h
      cases h

theorem normalizedItem_name (items : List JsVal) :
    (items.filterMap normalizedItem).map App.name =
      items.filterMap fun item => firstTruthy item ["displayName", "name", "appDisplayName"] := by
  induction items with
  | nil => rfl
  | cons item rest ih =>
    simp only [List.filterMap_cons, normalizedItem]
    cases firstTruthy item ["displayName", "name", "appDisplayName"] with
    | none => simpa [normalizedItem] using ih
    | some v => simpa [normalizedItem] using ih

/-- C5 (as stated, refuted): an item that has the field `displayName`, empty, gives
no record; with a second field `name` the record is named after `name`, not
after the first field present; and a `null` item makes the loop throw, so that
no record at all is produced. -/
theorem present_but_falsy_name_skipped :
    processApiRecords (.arr [.obj [("displayName", .str "")]]) = some [] ∧
    processApiRecords (.arr [.obj [("displayName", .str ""), ("name", .str "X")]]) =
      some [{ name := .str "X", url := .str "", icon := .str "" }] ∧
    processApiRecords (.arr [.obj [("displayName", .str "A")], .null]) = none :=
  ⟨rfl, rfl, rfl⟩

/-- C5 (amended): `processApiResponse` iterates the payload itself when it is an
array and otherwise the first truthy of its fields `appList`, `value` (else
nothing); when that value can be iterated and holds no `null` item, the records
are, in input order, one per item with a truthy name-like field, built from the
first truthy field of each preference list, url and icon being "" without one. -/
theorem api_records_first_truthy (data : JsVal) :
    (∀ xs, data = .arr xs → apiItems data = .arr xs) ∧
    ((∀ xs, data ≠ .arr xs) →
      apiItems data = (firstTruthy data ["appList", "value"]).getD (.arr [])) ∧
    (∀ items, (apiItems data).iterate = some items →
      (∀ item ∈ items, item ≠ .null ∧ item ≠ .undefined) →
      processApiRecords data = some (items.filterMap normalizedItem)) := by
  refine ⟨?_, ?_, ?_⟩
  · intro xs h
    subst h
    rfl
  · intro h
    have : apiItems data =
        ((data.getPropOpt "appList").or (data.getPropOpt "value")).or (.arr []) := by
      cases data with
      | arr xs => exact absurd rfl (h xs)
      | _ => rfl
    rw [this]
    simp only [JsVal.or, firstTruthy]
    by_cases h1 : (data.getPropOpt "appList").truthy
    · simp [h1]
    · by_cases h2 : (data.getPropOpt "value").truthy
      · simp [h1, h2]
      · simp [h1, h2]
  · intro items hit hdef
    unfold processApiRecords
    rw [hit]
    simp only
    rw [processApiLoop_of_defined items [] hdef]
    simp

/-- The network scenario: the payload with one item under `value`. -/
theorem api_records_first_truthy_witness :
    processApiRecords payloadX =
      some ([.obj [("appDisplayName", .str "X"), ("loginUrl", .str "https://x/login")]].filterMap
        normalizedItem) ∧
    processApiRecords payloadX =
      some [{ name := .str "X", url := .str "https://x/login", icon := .str "" }] :=
  ⟨(api_records_first_truthy payloadX).2.2 _ rfl (by
      intro item hitem
      rw [List.mem_singleton] at hitem
      subst hitem
      exact ⟨fun h => (by cases h), fun h => (by cases h)⟩),
   rfl⟩

/-- C6 (as stated, refuted): two items named "A" give two records named "A", and
both are in the list written by the one `set` call. -/
theorem api_duplicates_both_written :
    processApiRecords payloadTwice =
      some [{ name := .str "A", url := .str "https://a/1", icon := .str "" },
            { name := .str "A", url := .str "https://a/2", icon := .str "" }] ∧
    (step portal (main portal docEmpty "t0" emptyStorage)
        (.apiResponse payloadTwice "t1")).storage.setCalls =
      [[("myApps", Stored.apps
          [{ name := .str "A", url := .str "https://a/1", icon := .str "" },
           { name := .str "A", url := .str "https://a/2", icon := .str "" }]),
        ("lastUpdated", Stored.text "t1")]] :=
  ⟨rfl, rfl⟩

/-- C6 (amended): the network path does not deduplicate. When the loop of
`processApiResponse` ends, the names of its records are, in input order and
with repetitions, the first truthy name-like field of every item that has one,
and that list, when not empty, is passed to `saveApps` as it is. -/
theorem api_records_not_deduplicated (now : String) (data : JsVal) (apps : List App)
    (σ : Session) (h : processApiRecords data = some apps) :
    (∃ items, (apiItems data).iterate = some items ∧
      apps.map App.name =
        items.filterMap fun item => firstTruthy item ["displayName", "name", "appDisplayName"]) ∧
    (apps ≠ [] → processApiResponse now data σ =
      some { σ with hasSscraped := true, storage := saveApps now apps σ.storage }) ∧
    (apps = [] → processApiResponse now data σ = some σ) := by
  refine ⟨?_, ?_, ?_⟩
  · unfold processApiRecords at h
    cases hit : (apiItems data).iterate with
    | none => rw [hit] at h; cases h
    | some items =>
      rw [hit] at h
      simp only at h
      have hdef := processApiLoop_defined items [] apps h
      rw [processApiLoop_of_defined items [] hdef] at h
      simp only [List.nil_append, Option.some.injEq] at h
      exact ⟨items, rfl, by rw [← h]; exact normalizedItem_name items⟩
  · intro hne
    have hlen : apps.length > 0 := List.length_pos.mpr hne
    simp only [processApiResponse, h, hlen, if_true]
  · intro hnil
    subst hnil
    simp [processApiResponse, h]

/-- The payload with two items named "A". -/
theorem api_records_not_deduplicated_witness :
    (∃ items, (apiItems payloadTwice).iterate = some items ∧
      [JsVal.str "A", JsVal.str "A"] =
        items.filterMap fun item => firstTruthy item ["displayName", "name", "appDisplayName"]) :=
  (api_records_not_deduplicated "t1" payloadTwice
    [{ name := .str "A", url := .str "https://a/1", icon := .str "" },
     { name := .str "A", url := .str "https://a/2", icon := .str "" }]
    (Session.start emptyStorage) rfl).1

/-! ### The session -/

theorem watching_main (env : Browser) (doc : Document) (now : String) (st : Storage)
    (h : scrapeApps env doc = some []) : Watching st 0 (main env doc now st) := by
  have hmain : main env doc now st =
      { (Session.start st) with
          passes := 1, observing := true, retryInterval := true, listening := true } := by
    simp [main, observeAndScrape, tryToScrape, h, Session.start]
  rw [hmain]
  exact ⟨rfl, rfl, Or.inl ⟨by decide, rfl, rfl, rfl⟩⟩

theorem watching_step (env : Browser) (st : Storage) (k : Nat) (σ : Session) (e : Event)
    (hw : Watching st k σ) (hq : e.yieldsNothing env) :
    Watching st (k + if e.isRetry then 1 else 0) (step env σ e) := by
  obtain ⟨hst, hflag, harm⟩ := hw
  obtain ⟨f1, f2, rc, ob, db, ri, li, sto, pa⟩ := σ
  simp only at hst hflag harm
  subst hst hflag
  cases e with
  | mutation =>
    cases ob <;> exact ⟨rfl, rfl, harm⟩
  | debounce doc now =>
    cases db
    · exact ⟨rfl, rfl, harm⟩
    · simp only [step, tryToScrape, if_true]
      cases hs : scrapeApps env doc with
      | none => exact ⟨rfl, rfl, harm⟩
      | some apps =>
        have := hq apps hs
        subst this
        exact ⟨rfl, rfl, harm⟩
  | retry doc now =>
    cases ri
    · rcases harm with ⟨_, _, hon, _⟩ | ⟨hk, hcount, _, hobs⟩
      · cases hon
      · exact ⟨rfl, rfl, Or.inr ⟨Nat.le_succ_of_le hk, hcount, rfl, hobs⟩⟩
    · rcases harm with ⟨hk, hcount, _, hobs⟩ | ⟨_, _, hoff, _⟩
      · subst hcount hobs
        simp only [step, if_true, Bool.false_eq_true, false_or, Event.isRetry]
        by_cases hlast : rc + 1 ≥ MAX_RETRIES
        · simp only [hlast, if_true]
          exact ⟨rfl, rfl, Or.inr ⟨hlast, Nat.le_antisymm hk hlast, rfl, rfl⟩⟩
        · simp only [hlast, if_false, tryToScrape]
          cases hs : scrapeApps env doc with
          | none => exact ⟨rfl, rfl, Or.inl ⟨Nat.lt_of_not_ge hlast, rfl, rfl, rfl⟩⟩
          | some apps =>
            have := hq apps hs
            subst this
            exact ⟨rfl, rfl, Or.inl ⟨Nat.lt_of_not_ge hlast, rfl, rfl, rfl⟩⟩
      · cases hoff
  | apiResponse data now =>
    simp only [step, processApiResponse]
    cases hp : processApiRecords data with
    | none => exact ⟨rfl, rfl, harm⟩
    | some apps =>
      have := hq apps hp
      subst this
      exact ⟨rfl, rfl, harm⟩
  | scrapeMessage doc now =>
    cases li
    · exact ⟨rfl, rfl, harm⟩
    · simp only [step, if_true]
      cases hs : scrapeApps env doc with
      | none => exact ⟨rfl, rfl, harm⟩
      | some apps =>
        have := hq apps hs
        subst this
        exact ⟨rfl, rfl, harm⟩

theorem watching_run (env : Browser) (st : Storage) (events : List Event) :
    ∀ (k : Nat) (σ : Session), Watching st k σ → (∀ e ∈ events, e.yieldsNothing env) →
      Watching st (k + events.countP Event.isRetry) (run env σ events) := by
  induction events with
  | nil => intro k σ hw _; simpa [run] using hw
  | cons e rest ih =>
    intro k σ hw hq
    have h1 := watching_step env st k σ e hw (hq e (List.mem_cons_self _ _))
    have h2 := ih _ _ h1 (fun x hx => hq x (List.mem_cons_of_mem _ hx))
    have hrun : run env σ (e :: rest) = run env (step env σ e) rest := rfl
    rw [hrun, List.countP_cons]
    have hk : k + (List.countP Event.isRetry rest + if e.isRetry = true then 1 else 0) =
        k + (if e.isRetry = true then 1 else 0) + List.countP Event.isRetry rest := by omega
    rw [hk]
    exact h2

theorem disarmed_step (env : Browser) (σ : Session) (e : Event) (hd : Disarmed σ) :
    Disarmed (step env σ e) ∧
    pendingPasses (step env σ e) ≤ pendingPasses σ + (if e.isMessage then 1 else 0) := by
  obtain ⟨hint, hobs⟩ := hd
  obtain ⟨f1, f2, rc, ob, db, ri, li, sto, pa⟩ := σ
  simp only at hint hobs
  subst hint hobs
  cases e with
  | mutation => exact ⟨⟨rfl, rfl⟩, le_refl _⟩
  | debounce doc now =>
    cases db
    · exact ⟨⟨rfl, rfl⟩, le_refl _⟩
    · simp only [step, tryToScrape, if_true]
      cases scrapeApps env doc with
      | none => exact ⟨⟨rfl, rfl⟩, le_refl _⟩
      | some apps =>
        by_cases hlen : apps.length > 0
        · simp only [hlen, if_true]
          exact ⟨⟨rfl, rfl⟩, le_refl _⟩
        · simp only [hlen, if_false]
          exact ⟨⟨rfl, rfl⟩, le_refl _⟩
  | retry doc now => exact ⟨⟨rfl, rfl⟩, le_refl _⟩
  | apiResponse data now =>
    simp only [step, processApiResponse]
    cases processApiRecords data with
    | none => exact ⟨⟨rfl, rfl⟩, le_refl _⟩
    | some apps =>
      by_cases hlen : apps.length > 0
      · simp only [hlen, if_true]
        exact ⟨⟨rfl, rfl⟩, le_refl _⟩
      · simp only [hlen, if_false]
        exact ⟨⟨rfl, rfl⟩, le_refl _⟩
  | scrapeMessage doc now =>
    cases li
    · exact ⟨⟨rfl, rfl⟩, Nat.le_add_right _ _⟩
    · simp only [step, if_true]
      cases scrapeApps env doc with
      | none =>
        refine ⟨⟨rfl, rfl⟩, ?_⟩
        simp only [pendingPasses, Event.isMessage, if_true]
        omega
      | some apps =>
        refine ⟨⟨rfl, rfl⟩, ?_⟩
        simp only [pendingPasses, Event.isMessage, if_true]
        omega

theorem disarmed_run (env : Browser) (events : List Event) :
    ∀ σ : Session, Disarmed σ →
      Disarmed (run env σ events) ∧
      pendingPasses (run env σ events) ≤ pendingPasses σ + events.countP Event.isMessage := by
  induction events with
  | nil => intro σ hd; exact ⟨hd, by simp [run]⟩
  | cons e rest ih =>
    intro σ hd
    obtain ⟨h1, h2⟩ := disarmed_step env σ e hd
    obtain ⟨h3, h4⟩ := ih _ h1
    have hrun : run env σ (e :: rest) = run env (step env σ e) rest := rfl
    rw [hrun, List.countP_cons]
    exact ⟨h3, by omega⟩

/-- C2 (the code at the failing input): the page loads empty, a mutation arms the
debounce timer, the retry tick finds the tiles and writes them, and the
debounce callback, which does not read the flag, runs a third pass and issues
a second write. Again, a payload handled by `processApiResponse` raises
`hasSscraped` only, so that the retry tick, reading `hasScrapped`, writes a
second time. -/
theorem second_write_after_result :
    (run portal (main portal docEmpty "t0" emptyStorage)
      [.mutation, .retry docABA "t1"]).hasScrapped = true ∧
    (run portal (main portal docEmpty "t0" emptyStorage)
      [.mutation, .retry docABA "t1"]).storage.setCalls.length = 1 ∧
    (run portal (main portal docEmpty "t0" emptyStorage)
      [.mutation, .retry docABA "t1", .debounce docABA "t2"]).passes = 3 ∧
    (run portal (main portal docEmpty "t0" emptyStorage)
      [.mutation, .retry docABA "t1", .debounce docABA "t2"]).storage.setCalls.length = 2 ∧
    (run portal (main portal docEmpty "t0" emptyStorage)
      [.apiResponse payloadX "t1"]).hasSscraped = true ∧
    (run portal (main portal docEmpty "t0" emptyStorage)
      [.apiResponse payloadX "t1"]).hasScrapped = false ∧
    (run portal (main portal docEmpty "t0" emptyStorage)
      [.apiResponse payloadX "t1", .retry docABA "t2"]).storage.setCalls.length = 2 :=
  ⟨rfl, rfl, rfl, rfl, rfl, rfl, rfl⟩

/-- C10 (as stated, refuted): nineteen empty ticks, a mutation, the twentieth tick:
both triggers are disarmed and nothing was written, yet the debounce timer
armed by the mutation is still pending and its callback runs one more pass. -/
theorem pending_debounce_runs_after_exhaustion :
    (run portal (main portal docEmpty "t0" emptyStorage)
      (List.replicate 19 (.retry docEmpty "t") ++ [.mutation, .retry docEmpty "t"])).retryCount
        = 20 ∧
    (run portal (main portal docEmpty "t0" emptyStorage)
      (List.replicate 19 (.retry docEmpty "t") ++ [.mutation, .retry docEmpty "t"])).retryInterval
        = false ∧
    (run portal (main portal docEmpty "t0" emptyStorage)
      (List.replicate 19 (.retry docEmpty "t") ++ [.mutation, .retry docEmpty "t"])).observing
        = false ∧
    (run portal (main portal docEmpty "t0" emptyStorage)
      (List.replicate 19 (.retry docEmpty "t") ++ [.mutation, .retry docEmpty "t"])).passes
        = 20 ∧
    (run portal (main portal docEmpty "t0" emptyStorage)
      (List.replicate 19 (.retry docEmpty "t") ++
        [.mutation, .retry docEmpty "t", .debounce docEmpty "t"])).passes = 21 :=
  ⟨rfl, rfl, rfl, rfl, rfl⟩

/-- C10 (amended): in a session whose every pass yields no record the budget is
`MAX_RETRIES = 20` ticks of an interval of `RETRY_INTERVAL = 2000` ms. Nothing
is ever written. Before the twentieth tick both triggers are armed; from the
twentieth tick on the interval and the observer are disarmed and stay so,
mutation and retry callbacks change nothing, and apart from `scrapeApps`
messages at most one more pass can run: that of a debounce timer pending at
that moment. -/
theorem retry_budget_exhausted_disarms (env : Browser) (doc : Document) (now : String)
    (st : Storage) (events : List Event)
    (h0 : scrapeApps env doc = some [])
    (hq : ∀ e ∈ events, e.yieldsNothing env) :
    MAX_RETRIES = 20 ∧ RETRY_INTERVAL = 2000 ∧
    (run env (main env doc now st) events).storage = st ∧
    (events.countP Event.isRetry < 20 →
      (run env (main env doc now st) events).retryInterval = true ∧
      (run env (main env doc now st) events).observing = true ∧
      (run env (main env doc now st) events).retryCount = events.countP Event.isRetry) ∧
    (20 ≤ events.countP Event.isRetry →
      (run env (main env doc now st) events).retryCount = 20 ∧
      ∀ more : List Event,
        (run env (run env (main env doc now st) events) more).retryInterval = false ∧
        (run env (run env (main env doc now st) events) more).observing = false ∧
        step env (run env (run env (main env doc now st) events) more) .mutation =
          run env (run env (main env doc now st) events) more ∧
        (∀ d t, step env (run env (run env (main env doc now st) events) more) (.retry d t) =
          run env (run env (main env doc now st) events) more) ∧
        (run env (run env (main env doc now st) events) more).passes ≤
          (run env (main env doc now st) events).passes +
            (if (run env (main env doc now st) events).debounceTimer then 1 else 0) +
            more.countP Event.isMessage) := by
  have hw := watching_run env st events 0 (main env doc now st)
    (watching_main env doc now st h0) hq
  rw [Nat.zero_add] at hw
  obtain ⟨hst, _, harm⟩ := hw
  refine ⟨rfl, rfl, hst, ?_, ?_⟩
  · intro hlt
    rcases harm with ⟨_, hcount, hint, hobs⟩ | ⟨hge, _, _, _⟩
    · exact ⟨hint, hobs, hcount⟩
    · exact absurd hge (Nat.not_le.mpr hlt)
  · intro hge
    rcases harm with ⟨hlt, _, _, _⟩ | ⟨_, hcount, hint, hobs⟩
    · exact absurd hge (Nat.not_le.mpr hlt)
    · refine ⟨hcount, fun more => ?_⟩
      obtain ⟨⟨h1, h2⟩, h3⟩ :=
        disarmed_run env more (run env (main env doc now st) events) ⟨hint, hobs⟩
      refine ⟨h1, h2, ?_, ?_, ?_⟩
      · simp only [step, h2, Bool.false_eq_true, if_false]
      · intro d t
        simp only [step, h1, Bool.false_eq_true, if_false]
      · have : (run env (run env (main env doc now st) events) more).passes ≤
            pendingPasses (run env (run env (main env doc now st) events) more) :=
          Nat.le_add_right _ _
        exact le_trans this h3

/-- Twenty empty ticks on the empty page, then a mutation and one more tick. -/
theorem retry_budget_exhausted_disarms_witness :
    (run portal (main portal docEmpty "t0" emptyStorage)
      (List.replicate 20 (.retry docEmpty "t"))).storage = emptyStorage ∧
    (run portal (main portal docEmpty "t0" emptyStorage)
      (List.replicate 20 (.retry docEmpty "t"))).retryCount = 20 ∧
    (run portal (run portal (main portal docEmpty "t0" emptyStorage)
      (List.replicate 20 (.retry docEmpty "t")))
      [.mutation, .retry docEmpty "t"]).retryInterval = false :=
  have hq : ∀ e ∈ List.replicate 20 (Event.retry docEmpty "t"), e.yieldsNothing portal := by
    intro e he
    rw [List.eq_of_mem_replicate he]
    intro apps happs
    have hempty : scrapeApps portal docEmpty = some [] := rfl
    rw [hempty] at happs
    exact (Option.some.inj happs).symm
  have hcount : 20 ≤ (List.replicate 20 (Event.retry docEmpty "t")).countP Event.isRetry := by
    decide
  ⟨(retry_budget_exhausted_disarms portal docEmpty "t0" emptyStorage _ rfl hq).2.2.1,
   ((retry_budget_exhausted_disarms portal docEmpty "t0" emptyStorage _ rfl hq).2.2.2.2
      hcount).1,
   (((retry_budget_exhausted_disarms portal docEmpty "t0" emptyStorage _ rfl hq).2.2.2.2
      hcount).2 [.mutation, .retry docEmpty "t"]).1⟩

/-! ### The fetch wrapper and the export file name -/

theorem matchesApi_str (s : String) :
    matchesApi (.str s) =
      some (jsIncludes s "/api/myapps" || jsIncludes s "/api/" && jsIncludes s "application") := by
  unfold matchesApi
  simp only [urlIncludes]
  cases jsIncludes s "/api/myapps" <;> cases jsIncludes s "/api/" <;> rfl

/-- C11 (as stated, refuted): the original `fetch` fulfils both calls with the
response `0`. Called with an object whose `url` property is the number 5, the
wrapper rejects with a `TypeError` of its own; called on a matching URL whose
body never ends, the wrapper never settles. -/
theorem wrapped_fetch_rejects_or_hangs :
    pageFetch.originalFetch [.obj [("url", .num 5)]] = .resolved 0 ∧
    (wrappedFetch pageFetch [.obj [("url", .num 5)]]).outcome =
      .rejected "TypeError: url.includes is not a function" ∧
    streamingFetch.originalFetch [.str "/api/myapps/events"] = .resolved 0 ∧
    (wrappedFetch streamingFetch [.str "/api/myapps/events"]).outcome = .pending :=
  ⟨rfl, rfl, rfl, rfl⟩

/-- C11 (amended): when the URL the wrapper derives from the arguments is a string,
the wrapper has no error of its own and passes the original outcome through:
a rejection with `e` is a rejection with `e`; a response `r` for a URL that
does not match is returned as it is; a response `r` for a matching URL is
returned as it is once the read of the cloned body has ended, with the parsed
data or with a failure, which is swallowed, and the call stays pending while
that read does not end. A first argument that is a string is the URL. -/
theorem wrapped_fetch_passes_outcome {ρ ε : Type} (w : FetchEnv ρ ε) (args : List JsVal)
    (s : String) (hurl : requestUrl args = .str s) :
    (∀ t rest, requestUrl (.str t :: rest) = .str t) ∧
    (∀ e, w.originalFetch args = .rejected e →
      (wrappedFetch w args).outcome = .rejected e) ∧
    (w.originalFetch args = .pending → (wrappedFetch w args).outcome = .pending) ∧
    (∀ r, w.originalFetch args = .resolved r →
      ((jsIncludes s "/api/myapps" || jsIncludes s "/api/" && jsIncludes s "application")
          = false →
        (wrappedFetch w args).outcome = .resolved r) ∧
      ((jsIncludes s "/api/myapps" || jsIncludes s "/api/" && jsIncludes s "application")
          = true →
        (w.cloneJson r ≠ .pending → (wrappedFetch w args).outcome = .resolved r) ∧
        (w.cloneJson r = .pending → (wrappedFetch w args).outcome = .pending))) ∧
    (∀ e, (wrappedFetch w args).outcome = .rejected e → w.originalFetch args = .rejected e) := by
  have hm := matchesApi_str s
  refine ⟨fun _ _ => rfl, ?_, ?_, ?_, ?_⟩
  · intro e he
    simp only [wrappedFetch, he]
  · intro hp
    simp only [wrappedFetch, hp]
  · intro r hr
    refine ⟨?_, ?_⟩
    · intro hno
      rw [hno] at hm
      simp only [wrappedFetch, hr, hurl, hm]
    · intro hyes
      rw [hyes] at hm
      refine ⟨?_, ?_⟩
      · intro hne
        simp only [wrappedFetch, hr, hurl, hm]
        cases hc : w.cloneJson r with
        | pending => exact absurd hc hne
        | rejected _ => rfl
        | resolved _ => rfl
      · intro hp
        simp only [wrappedFetch, hr, hurl, hm, hp]
  · intro e he
    cases ho : w.originalFetch args with
    | pending =>
      simp only [wrappedFetch, ho] at he
      cases he
    | rejected e' =>
      simp only [wrappedFetch, ho] at he
      cases he
      rfl
    | resolved r =>
      simp only [wrappedFetch, ho, hurl, hm] at he
      cases hb : (jsIncludes s "/api/myapps" || jsIncludes s "/api/" &&
          jsIncludes s "application") with
      | false =>
        rw [hb] at he
        cases he
      | true =>
        rw [hb] at he
        simp only at he
        cases hc : w.cloneJson r with
        | pending => rw [hc] at he; cases he
        | rejected _ => rw [hc] at he; cases he
        | resolved _ => rw [hc] at he; cases he

/-- A call on a matching URL whose body is read to its end returns the response
of the original call. -/
theorem wrapped_fetch_passes_outcome_witness :
    requestUrl [.str "https://myapps.microsoft.com/api/myapps/list"] =
      .str "https://myapps.microsoft.com/api/myapps/list" ∧
    (wrappedFetch pageFetch [.str "https://myapps.microsoft.com/api/myapps/list"]).outcome =
      .resolved 0 :=
  ⟨rfl,
   (((wrapped_fetch_passes_outcome pageFetch
      [.str "https://myapps.microsoft.com/api/myapps/list"]
      "https://myapps.microsoft.com/api/myapps/list" rfl).2.2.2.1 0 rfl).2 (by decide)).1
      (fun h => by cases h)⟩

theorem digit_ne (n : Nat) :
    digit n ≠ ':' ∧ digit n ≠ '.' ∧ digit n ≠ 'T' ∧ digit n ≠ '-' := by
  unfold digit
  split <;> decide

theorem keep_digit (n : Nat) : (digit n != ':' && digit n != '.') = true := by
  have h := digit_ne n
  simp [h.1, h.2.1]

theorem keep_hyphen : ('-' != ':' && '-' != '.') = true := by decide

theorem keep_T : ('T' != ':' && 'T' != '.') = true := by decide

theorem keep_Z : ('Z' != ':' && 'Z' != '.') = true := by decide

theorem drop_colon : (':' != ':' && ':' != '.') = false := by decide

theorem drop_dot : ('.' != ':' && '.' != '.') = false := by decide

theorem replaceFirstT_digit (n : Nat) (l : List Char) :
    replaceFirstT (digit n :: l) = digit n :: replaceFirstT l := by
  simp [replaceFirstT, (digit_ne n).2.2.1]

theorem replaceFirstT_hyphen (l : List Char) :
    replaceFirstT ('-' :: l) = '-' :: replaceFirstT l := by
  simp [replaceFirstT]

theorem replaceFirstT_T (l : List Char) : replaceFirstT ('T' :: l) = '-' :: l := by
  simp [replaceFirstT]

/-- C12 (the code read at every date from year 0 to 9999): `formatDateForFile`
returns the fifteen characters `YYYY-MM-DD-HHmm`. The hyphens of the ISO date
stay, so the cut after fifteen characters drops the seconds, and the result is
never the string `YYYYMMDD-HHmmss` that the comment of the function and the
claim announce. -/
theorem formatDateForFile_keeps_date_hyphens (f : UtcFields)
    (hy : 0 ≤ f.year ∧ f.year ≤ 9999) :
    formatDateForFile (.valid f) =
      some (String.mk (pad4 f.year.toNat ++ '-' :: pad2 (f.month.val + 1) ++
        '-' :: pad2 (f.day.val + 1) ++ '-' :: pad2 f.hours.val ++ pad2 f.minutes.val)) ∧
    (formatDateForFile (.valid f)).map String.length = some 15 ∧
    formatDateForFile (.valid f) ≠
      some (String.mk (pad4 f.year.toNat ++ pad2 (f.month.val + 1) ++ pad2 (f.day.val + 1) ++
        '-' :: pad2 f.hours.val ++ pad2 f.minutes.val ++ pad2 f.seconds.val)) := by
  have h : formatDateForFile (.valid f) =
      some (String.mk (pad4 f.year.toNat ++ '-' :: pad2 (f.month.val + 1) ++
        '-' :: pad2 (f.day.val + 1) ++ '-' :: pad2 f.hours.val ++ pad2 f.minutes.val)) := by
    have hyear : isoYear f.year = pad4 f.year.toNat := by
      unfold isoYear
      rw [if_pos hy]
    simp only [formatDateForFile, toISOString, hyear, Option.map_some', removeColonsDots,
      replaceT, slice15, pad2, pad3, pad4, String.toList, List.cons_append, List.nil_append,
      List.filter_cons, keep_digit, keep_hyphen, keep_T, keep_Z, drop_colon, drop_dot, if_true,
      Bool.false_eq_true, if_false, List.filter_nil, replaceFirstT_digit, replaceFirstT_hyphen,
      replaceFirstT_T, List.take_succ_cons, List.take_zero]
  refine ⟨h, ?_, ?_⟩
  · rw [h]
    simp [pad2, pad4, String.length]
  · rw [h]
    intro heq
    have h5 := congrArg (fun o : Option String => o.map fun t => t.data.getD 4 'x') heq
    simp only [Option.map_some', pad2, pad4, List.cons_append, List.nil_append,
      List.getD_cons_succ, List.getD_cons_zero, Option.some.injEq] at h5
    exact (digit_ne _).2.2.2 h5.symm

/-- The instant 2024-01-15T10:30:45.123Z gives the file name
`my-apps-export-2024-01-15-1030.json`. -/
theorem formatDateForFile_keeps_date_hyphens_witness :
    toISOString january15 = some "2024-01-15T10:30:45.123Z" ∧
    formatDateForFile january15 = some "2024-01-15-1030" ∧
    formatDateForFile january15 ≠ some "20240115-103045" ∧
    exportFileName january15 = some "my-apps-export-2024-01-15-1030.json" :=
  ⟨rfl,
   (formatDateForFile_keeps_date_hyphens
      { year := 2024, month := 0, day := 14, hours := 10, minutes := 30, seconds := 45,
        milliseconds := 123 } (by decide)).1,
   (formatDateForFile_keeps_date_hyphens
      { year := 2024, month := 0, day := 14, hours := 10, minutes := 30, seconds := 45,
        milliseconds := 123 } (by decide)).2.2,
   rfl⟩

end MyApps
